import Mathlib

/-!
Verification development for the field/type transformation and reconciliation
pipeline of the RealTechee-2.0 migration scripts
(scripts/migrate_to_amplify_tables.py and scripts/extract_properties.py).

Strings are modelled as lists of characters; Python string operations
(startswith, split, replace, strip, lower, substring membership) are
re-implemented below as structurally recursive functions so that every
definition evaluates inside the kernel.  Python regular expressions used by
the scripts are specialised to the concrete patterns appearing in the code.
Two pieces of Python standard-library behaviour that the scripts call into
are taken as parameters rather than re-implemented: difflib.SequenceMatcher
ratio comparison (parameter rGt below) and the json module used by the
gallery-array branch of convert_wix_url_field (parameter gal below).  No
theorem in this file depends on the behaviour of either parameter.
-/

namespace RT

/-- Python str modelled as a list of characters. -/
abbrev Str := List Char

/-- Python s.startswith(p): p is a prefix of s (arguments: pattern, string). -/
def startsWith (p s : Str) : Bool :=
  List.isPrefixOf p s

/-- Python s.endswith(p). -/
def endsWith (p s : Str) : Bool :=
  List.isSuffixOf p s

/-- Python `pat in s` substring test (empty pattern is contained everywhere). -/
def containsSub (s pat : Str) : Bool :=
  match s with
  | [] => pat.isEmpty
  | _ :: rest => List.isPrefixOf pat s || containsSub rest pat

/-- Python s.split(sep) for a single-character separator. -/
def splitOnChar (sep : Char) : Str → List Str
  | [] => [[]]
  | c :: rest =>
    match splitOnChar sep rest with
    | [] => [[c]]
    | h :: t => if c = sep then [] :: h :: t else (c :: h) :: t

/-- Fuelled worker for replaceAll; fuel bounds the number of characters consumed. -/
def replaceAllAux (pat rep : Str) : Nat → Str → Str
  | 0, s => s
  | _ + 1, [] => []
  | fuel + 1, c :: rest =>
    if startsWith pat (c :: rest) then
      rep ++ replaceAllAux pat rep fuel (rest.drop (pat.length - 1))
    else
      c :: replaceAllAux pat rep fuel rest

/-- Python s.replace(pat, rep): replace every non-overlapping occurrence,
left to right.  (The scripts never call replace with an empty pattern.) -/
def replaceAll (pat rep s : Str) : Str :=
  match pat with
  | [] => s
  | _ :: _ => replaceAllAux pat rep s.length s

/-- Python s.strip() (whitespace on both ends). -/
def pyStrip (s : Str) : Str :=
  ((s.dropWhile Char.isWhitespace).reverse.dropWhile Char.isWhitespace).reverse

/-- Python s.lower() (modelled over the ASCII range, which is the only range
the scripts' subsequent character filters keep). -/
def lowerStr (s : Str) : Str :=
  s.map Char.toLower

/-- Python regex "$" in non-multiline mode matches at the end of the string or
just before one final newline; this strips that one optional final newline so
anchored-at-end checks can be stated as plain suffix checks. -/
def stripNL (s : Str) : Str :=
  if s.getLast? = some '\n' then s.dropLast else s

/-! ## Media Reference Rewriter
(migrate_to_amplify_tables.py, convert_wix_media_url / is_wix_media_url /
convert_wix_url_field, lines 286-512) -/

/-- The recognized image extensions of the pattern
"\.(jpe?g|png|gif|webp|svg)$" used with re.IGNORECASE. -/
def imageExts : List Str :=
  [".jpg", ".jpeg", ".png", ".gif", ".webp", ".svg"].map String.data

/-- re.search("\.(jpe?g|png|gif|webp|svg)$", s, re.IGNORECASE) as a Bool:
case-insensitive suffix test, with "$" also matching before one final
newline. -/
def hasImageExt (s : Str) : Bool :=
  imageExts.any fun e => endsWith e (stripNL (lowerStr s))

/-- A character of the class [a-f0-9_] (after lowercasing, which models
re.IGNORECASE). -/
def isHexU (c : Char) : Bool :=
  ('a' ≤ c && c ≤ 'f') || c.isDigit || c = '_'

/-- re.match("^[a-f0-9_]+$", s, re.IGNORECASE) as a Bool. -/
def isHexId (s : Str) : Bool :=
  let m := stripNL (lowerStr s)
  !m.isEmpty && m.all isHexU

/-- re.match("^[a-f0-9_]+mv2$", s, re.IGNORECASE) as a Bool: a nonempty
[a-f0-9_] run followed by the literal "mv2" at the end. -/
def isHexMv2 (s : Str) : Bool :=
  let m := stripNL (lowerStr s)
  endsWith "mv2".data m && !(m.take (m.length - 3)).isEmpty &&
    (m.take (m.length - 3)).all isHexU

/-- re.match("mv2$", s, re.IGNORECASE) as a Bool: the whole string is "mv2"
(up to case and one optional final newline). -/
def isMv2Only (s : Str) : Bool :=
  stripNL (lowerStr s) = "mv2".data

/-- Worker for extractQuoted: leftmost occurrence of key followed by a
nonempty run of non-quote characters terminated by a quote. -/
def extractQuotedGo (key : Str) : Str → Option Str
  | [] => none
  | c :: rest =>
    (if startsWith key (c :: rest) then
      let after := (c :: rest).drop key.length
      let grp := after.takeWhile (fun ch => ¬(ch = '"'))
      if !grp.isEmpty && grp.length < after.length then some grp else none
    else none).orElse fun _ => extractQuotedGo key rest

/-- re.search(key ++ "\"([^\"]+)\"", s) where key is a literal such as
"\"uri\":\"": returns the first captured group, scanning start positions left
to right exactly as the Python regex engine does. -/
def extractQuoted (key : Str) (s : Str) : Option Str :=
  extractQuotedGo key s

/-- The "uri":"..." extraction of convert_wix_media_url (line 325). -/
def uriExtract (s : Str) : Option Str :=
  extractQuoted "\"uri\":\"".data s

/-- The "slug":"..." extraction of convert_wix_media_url (line 335). -/
def slugExtract (s : Str) : Option Str :=
  extractQuoted "\"slug\":\"".data s

/-- The media-id extraction of convert_wix_media_url (lines 354-373): strip
the scheme (str.replace removes every occurrence), drop everything from the
first "#", split on "/", and take the segment after a leading "v1", else the
first segment.  The early return for len(parts) < 1 at line 363 is
unreachable because str.split always yields at least one element, so it has
no counterpart here. -/
def wixMediaId (s : Str) : Str :=
  let withoutPref := replaceAll "wix:image://".data [] s
  let withoutHash := (splitOnChar '#' withoutPref).headD []
  let parts := splitOnChar '/' withoutHash
  if parts.headD [] = "v1".data ∧ 2 ≤ parts.length then (parts.drop 1).headD []
  else parts.headD []

/-- The versioning-suffix rules of convert_wix_media_url (lines 379-385):
the three if/elif branches that append "~mv2.jpg". -/
def wixSuffixed (mediaId : Str) : Str :=
  if isMv2Only mediaId && !mediaId.contains '~' then mediaId ++ "~mv2.jpg".data
  else if isHexMv2 mediaId && !mediaId.contains '~' then mediaId ++ "~mv2.jpg".data
  else if !(containsSub mediaId "~mv2".data || hasImageExt mediaId) then
    mediaId ++ "~mv2.jpg".data
  else mediaId

/-- The wix:image protocol branch of convert_wix_media_url (lines 350-391),
including its leading format guard.  The Python code reaches this code only
with strings that do not start with "http://", "https://", "[" or "\x7b"; on
such strings the three leading returns of convert_wix_media_url do not fire,
so unfolding the recursion through this core is faithful. -/
def convertWixCore (s : Str) : Str :=
  if ¬ startsWith "wix:image://".data s then s
  else if startsWith "shapes_".data (wixMediaId s) then
    "https://static.wixstatic.com/shapes/".data ++
      replaceAll "shapes_".data [] (wixMediaId s) ++ ".svg".data
  else
    "https://static.wixstatic.com/media/".data ++ wixSuffixed (wixMediaId s)

/-- The slug fall-through of the JSON branch of convert_wix_media_url
(lines 334-344); when no slug is extracted the Python control flow falls past
the JSON block to the final format guard, which returns the input unchanged
because the input starts with "[" or "\x7b". -/
def slugPart (s : Str) : Str :=
  if containsSub s "\"slug\"".data then
    match slugExtract s with
    | some slug =>
      if !(containsSub slug "~mv2".data || hasImageExt slug) && isHexId slug then
        "https://static.wixstatic.com/media/".data ++ slug ++ "~mv2.jpg".data
      else
        "https://static.wixstatic.com/media/".data ++ slug
    | none => s
  else s

/-- convert_wix_media_url (lines 309-391).  The recursive call on a nested
"uri" value (line 329) is guarded by nested.startswith("wix:image://"), so in
the callee only the protocol branch can run; the recursion is therefore
unfolded into convertWixCore. -/
def convert_wix_media_url (s : Str) : Str :=
  if s.isEmpty then s
  else if startsWith "http://".data s || startsWith "https://".data s then s
  else if startsWith "[".data s || startsWith "\x7b".data s then
    match uriExtract s with
    | some nested =>
      if startsWith "wix:image://".data nested then convertWixCore nested
      else if startsWith "http".data nested then nested
      else slugPart s
    | none => slugPart s
  else convertWixCore s

/-- is_wix_media_url (lines 286-307). -/
def is_wix_media_url (s : Str) : Bool :=
  if s.isEmpty then false
  else if startsWith "wix:image://".data s then true
  else if containsSub s "\"slug\"".data then true
  else if (startsWith "[".data s && endsWith "]".data s) ||
          (startsWith "\x7b".data s && endsWith "\x7d".data s) then true
  else containsSub s "wixstatic.com".data

/-- The field kinds accepted by convert_wix_url_field. -/
inductive WixKind where
  | single
  | array
  | document
  | content
deriving DecidableEq

/-- A character allowed inside the content-field pattern
"wix:image://[^\s\"\x27<>]+" (anything but whitespace, quotes and angle
brackets). -/
def contentOk (c : Char) : Bool :=
  !c.isWhitespace && !(c = '"') && !(c = '\x27') && !(c = '<') && !(c = '>')

/-- Fuelled worker for re.sub("wix:image://[^\s\"\x27<>]+", repl, s) with a
functional replacement: leftmost non-overlapping matches, each maximal. -/
def subWixContentAux (conv : Str → Str) : Nat → Str → Str
  | 0, s => s
  | _ + 1, [] => []
  | fuel + 1, c :: rest =>
    if startsWith "wix:image://".data (c :: rest) then
      let after := (c :: rest).drop 12
      let body := after.takeWhile contentOk
      if !body.isEmpty then
        conv ("wix:image://".data ++ body) ++
          subWixContentAux conv fuel (after.drop body.length)
      else c :: subWixContentAux conv fuel rest
    else c :: subWixContentAux conv fuel rest

/-- re.sub of the content branch (lines 499-505). -/
def subWixContent (conv : Str → Str) (s : Str) : Str :=
  subWixContentAux conv s.length s

/-- convert_wix_url_field (lines 393-512).  The gallery-array branch (lines
421-462) parses the value with Python's json module, rewrites "src"/"slug"
keys of each object element and re-serialises; that branch is abstracted as
the parameter gal (on any json failure the Python branch falls through and
returns the value unchanged, so gal's failure mode is also a plain function
value).  No theorem below depends on gal. -/
def convert_wix_url_field (gal : Str → Str) (v : Str) (kind : WixKind) : Str :=
  if v.isEmpty then v
  else
    match kind with
    | .single => if is_wix_media_url v then convert_wix_media_url v else v
    | .array =>
      if startsWith "[".data v then gal v
      else if startsWith "\x7b".data v then
        if containsSub v "\"slug\"".data then convert_wix_media_url v else v
      else if containsSub v ",".data && containsSub v "wix:".data then
        let urls := (splitOnChar ',' v).map pyStrip
        let converted := urls.map fun u =>
          if is_wix_media_url u then convert_wix_media_url u else u
        (converted.intersperse ",".data).flatten
      else if is_wix_media_url v then convert_wix_media_url v
      else v
    | .document => if is_wix_media_url v then convert_wix_media_url v else v
    | .content =>
      if containsSub v "wix:image://".data || containsSub v "wixstatic.com".data then
        subWixContent convert_wix_media_url v
      else v

/-! ## Wix document URL converter
(migrate_to_amplify_tables.py, is_wix_document_url / convert_wix_document_url,
lines 1077-1132) -/

/-- Result of convert_wix_document_url: either the structured record
(the Python dict with keys "filename" and "documentPublicUrl") or the error
record (the Python dict with key "error"). -/
inductive DocResult where
  | ok (filename docUrl : Str)
  | err (msg : Str)
deriving DecidableEq

/-- The fixed public URL stem of convert_wix_document_url (line 1100). -/
def publicUrlStem : Str :=
  "https://03839c70-7508-4e6d-b906-4df699fc5aa1.usrfiles.com/ugd/".data

/-- is_wix_document_url (lines 1077-1082). -/
def is_wix_document_url (s : Str) : Bool :=
  startsWith "wix:document://".data s

/-- convert_wix_document_url (lines 1084-1132).  The two raised ValueErrors
are caught by the function itself and turned into the error record carrying
str(e), so they are modelled directly as error results. -/
def convert_wix_document_url (s : Str) : DocResult :=
  if ¬ is_wix_document_url s then .err "Not a valid Wix document URL".data
  else
    let withoutPref := replaceAll "wix:document://".data [] s
    if startsWith "v1/ugd/".data withoutPref ∨ startsWith "v1/".data withoutPref then
      let pathParts :=
        if startsWith "v1/ugd/".data withoutPref then
          splitOnChar '/' (replaceAll "v1/ugd/".data [] withoutPref)
        else
          splitOnChar '/' (replaceAll "v1/".data [] withoutPref)
      if pathParts.length < 2 then
        .err ("Invalid Wix document URL structure: ".data ++ s)
      else
        .ok ((pathParts.drop 1).headD []) (publicUrlStem ++ pathParts.headD [])
    else .err ("Unexpected Wix document URL format: ".data ++ s)

/-! ## Scalar coercions
(migrate_to_amplify_tables.py, clean_email_value / clean_url_value /
convert_boolean_value / convert_numeric_value, lines 202-284) -/

/-- A character of the email local-part class [a-zA-Z0-9._%+-]. -/
def emailAChar (c : Char) : Bool :=
  c.isAlpha || c.isDigit || c = '.' || c = '_' || c = '%' || c = '+' || c = '-'

/-- A character of the class [@%40] of the email search pattern (a character
class, i.e. one of the four characters at-sign, percent, four, zero). -/
def emailBChar (c : Char) : Bool :=
  c = '@' || c = '%' || c = '4' || c = '0'

/-- A character of the email domain class [a-zA-Z0-9.-]. -/
def emailCChar (c : Char) : Bool :=
  c.isAlpha || c.isDigit || c = '.' || c = '-'

/-- The candidate lengths [n, n-1, ..., 1] tried by a greedy one-or-more
quantifier with backtracking. -/
def downFrom1 (n : Nat) : List Nat :=
  (List.range n).reverse.map (· + 1)

/-- Attempt of the email search pattern
"([a-zA-Z0-9._%+-]+[@%40][a-zA-Z0-9.-]+\.[a-zA-Z]\x7b2,\x7d)" at one fixed
start position, with the greedy-plus-backtracking order of the Python regex
engine (longest A-run first, then longest C-run first). -/
def emailMatchAt (s : Str) : Option Str :=
  let aMax := s.takeWhile emailAChar
  (downFrom1 aMax.length).findSome? fun la =>
    let a := s.take la
    match s.drop la with
    | [] => none
    | b :: rest2 =>
      if emailBChar b then
        let cMax := rest2.takeWhile emailCChar
        (downFrom1 cMax.length).findSome? fun lc =>
          let c := rest2.take lc
          match rest2.drop lc with
          | '.' :: rest4 =>
            let d := rest4.takeWhile Char.isAlpha
            if 2 ≤ d.length then some (a ++ b :: (c ++ '.' :: d)) else none
          | _ => none
      else none

/-- re.search of the email pattern: leftmost start position wins. -/
def emailSearch : Str → Option Str
  | [] => none
  | c :: rest => (emailMatchAt (c :: rest)).orElse fun _ => emailSearch rest

/-- re.match("^[a-zA-Z0-9._%+-]+@[a-zA-Z0-9.-]+\.[a-zA-Z]\x7b2,\x7d$", s):
the anchored validation of the extracted email (line 214); "$" also matches
before one final newline.  The domain part is decomposed at its last dot,
which is the only decomposition the pattern admits since the top-level-domain
class excludes dots. -/
def emailValidate (s : Str) : Bool :=
  let m := stripNL s
  match splitOnChar '@' m with
  | [a, rest] =>
    let segs := splitOnChar '.' rest
    let d := segs.getLastD []
    let cpart := segs.dropLast
    !a.isEmpty && a.all emailAChar && 2 ≤ segs.length &&
      (2 ≤ cpart.length || !(cpart.headD []).isEmpty) &&
      cpart.all (·.all emailCChar) &&
      2 ≤ d.length && d.all Char.isAlpha
  | _ => false

/-- clean_email_value (lines 202-218) on a string value; none models the
Python return value None (the caller then drops the field). -/
def clean_email_value (s : Str) : Option Str :=
  if containsSub s "%40".data || containsSub s "@".data then
    match emailSearch s with
    | some g =>
      let email := replaceAll "%40".data "@".data g
      if emailValidate email then some email
      else if startsWith "/".data s then none else some s
    | none => if startsWith "/".data s then none else some s
  else if startsWith "/".data s then none else some s

/-- clean_url_value (lines 220-232) on a string value. -/
def clean_url_value (s : Str) : Option Str :=
  if startsWith "http://".data s || startsWith "https://".data s ||
     startsWith "ftp://".data s then some s
  else if startsWith "www.".data s then some ("https://".data ++ s)
  else none

/-- A Python scalar as stored in a DynamoDB item: None, str, bool, int,
Decimal or float.  Decimal and float are both modelled over the rationals;
container values (lists, maps) are not modelled, as no claim concerns them. -/
inductive PVal where
  | pnull
  | pstr (s : Str)
  | pbool (b : Bool)
  | pint (z : Int)
  | pdec (q : Rat)
  | pfloat (q : Rat)
deriving DecidableEq

/-- convert_boolean_value (lines 234-243).  Note that a Decimal is not an
instance of int or float in Python, so it falls to the final else and yields
False, while a bool short-circuits at the first isinstance check. -/
def convert_boolean_value : PVal → Bool
  | .pbool b => b
  | .pstr s => (["true", "1", "yes", "on"].map String.data).contains (lowerStr s)
  | .pint z => z != 0
  | .pfloat q => q != 0
  | .pdec _ => false
  | .pnull => false

/-- The target type tag of convert_numeric_value. -/
inductive NumKind where
  | integer
  | decimal
  | float
deriving DecidableEq

/-- A character kept by re.sub("[^\d.-]", "", value): digits, dot, minus. -/
def isNumKeep (c : Char) : Bool :=
  c.isDigit || c = '.' || c = '-'

/-- Whether the cleaned string (alphabet digits, dot, minus) is accepted by
Python float()/Decimal(): an optional leading minus, at most one dot, at
least one digit, and no other minus sign. -/
def validNum (s : Str) : Bool :=
  let t := if startsWith "-".data s then s.drop 1 else s
  !t.contains '-' && (t.filter (fun c => c = '.')).length ≤ 1 &&
    t.any Char.isDigit && t.all (fun c => c.isDigit || c = '.')

/-- Numeric value of a digit run. -/
def digitsToNat (l : Str) : Nat :=
  l.foldl (fun acc c => 10 * acc + (c.toNat - 48)) 0

/-- Exact rational value of a valid cleaned numeric string. -/
def ratOfNum (s : Str) : Rat :=
  let neg := startsWith "-".data s
  let t := if neg then s.drop 1 else s
  let q : Rat :=
    match splitOnChar '.' t with
    | [a] => (digitsToNat a : Rat)
    | [a, b] => (digitsToNat a : Rat) + (digitsToNat b : Rat) / ((10 : Rat) ^ b.length)
    | _ => 0
  if neg then -q else q

/-- Python int() truncation toward zero on a rational. -/
def truncTowardZero (q : Rat) : Int :=
  if 0 ≤ q.num then (q.num.toNat / q.den : Nat)
  else -((((-q.num).toNat) / q.den : Nat) : Int)

/-- convert_numeric_value (lines 245-284).  The string branch parses the
cleaned string through float() for the integer target; Python uses IEEE
doubles there, modelled here by the exact rational value (the difference only
appears beyond 2^53, which no claim exercises).  A parse failure
(ValueError) is caught and the original value returned. -/
def convert_numeric_value (v : PVal) (t : NumKind) : PVal :=
  match v with
  | .pnull => .pnull
  | .pdec q =>
    match t with
    | .integer => .pint (truncTowardZero q)
    | .decimal => .pdec q
    | .float => .pfloat q
  | .pstr s =>
    if s.isEmpty then .pnull
    else if (pyStrip s).isEmpty then .pnull
    else
      let cleaned := s.filter isNumKeep
      if cleaned.isEmpty || cleaned = "-".data || cleaned = ".".data then .pnull
      else if validNum cleaned then
        match t with
        | .integer => .pint (truncTowardZero (ratOfNum cleaned))
        | .decimal => .pdec (ratOfNum cleaned)
        | .float => .pfloat (ratOfNum cleaned)
      else v
  | .pint z =>
    match t with
    | .integer => .pint z
    | .decimal => .pdec (z : Rat)
    | .float => .pfloat (z : Rat)
  | .pbool b =>
    match t with
    | .integer => .pint (if b then 1 else 0)
    | .decimal => .pdec (if b then 1 else 0)
    | .float => .pfloat (if b then 1 else 0)
  | .pfloat q =>
    match t with
    | .integer => .pint (truncTowardZero q)
    | .decimal => .pdec q
    | .float => .pfloat q

/-- Python str(value) for the string_fields branch.  For Decimal/float
inputs Python renders the stored exponent form, which the rational model
does not retain; rendered canonically here (no claim exercises this path). -/
def pyStr : PVal → Str
  | .pstr s => s
  | .pbool b => if b then "True".data else "False".data
  | .pint z =>
    if 0 ≤ z then Nat.toDigits 10 z.toNat
    else '-' :: Nat.toDigits 10 (-z).toNat
  | .pnull => "None".data
  | .pdec q => (Nat.toDigits 10 q.num.natAbs) ++ '/' :: Nat.toDigits 10 q.den
  | .pfloat q => (Nat.toDigits 10 q.num.natAbs) ++ '/' :: Nat.toDigits 10 q.den

/-! ## Field classification lists and item transformation
(migrate_to_amplify_tables.py, field_mappings / exclude_fields /
type_transformations, lines 67-153, and transform_item, lines 548-636) -/

/-- Convenience: a list of Lean string literals as character lists. -/
def strs (l : List String) : List Str :=
  l.map String.data

/-- type_transformations["integer_fields"] (lines 92-95). -/
def integer_fields : List Str :=
  strs ["numEmployees", "order", "floors", "yearBuilt", "quoteNumber",
        "openEscrowWithinDays", "accountExecutive", "bedrooms", "bathrooms"]

/-- type_transformations["decimal_fields"] (lines 97-104). -/
def decimal_fields : List Str :=
  strs ["accounting", "order", "paymentAmount", "sizeSqft", "originalValue",
        "listingPrice", "salePrice", "boostPrice", "boosterEstimatedCost",
        "boosterActualCost", "addedValue", "revShareAmount", "loanBalance",
        "budget", "totalCost", "totalPrice", "projectedListingPrice",
        "creditScore", "quantity", "marginPercent", "cost", "price",
        "statusOrder", "bedrooms", "bathrooms", "openEscrowWithinDays",
        "accountExecutive"]

/-- type_transformations["boolean_fields"] (lines 106-113). -/
def boolean_fields : List Str :=
  strs ["hash", "sendEmailNotifications", "sendSmsNotifications", "active",
        "live", "projectRemnantList", "isPrivate", "isComplete", "isCategory",
        "isInternal", "internal", "paid", "permissions",
        "excludeFromDashboard", "permissionPublic", "permissionPrivateRoles",
        "permissionPrivateUsers", "archived", "signed",
        "operationManagerApproved", "underwritingApproved", "needFinance",
        "itemCompleted", "recommendItem"]

/-- type_transformations["string_fields"] (lines 115-118). -/
def string_fields : List Str :=
  strs ["zip", "phone", "mobile", "license", "invoiceNumber", "unitPrice",
        "total", "bedrooms", "bathrooms", "floors", "sizeSqft", "yearBuilt"]

/-- type_transformations["email_fields"] (lines 120-123). -/
def email_fields : List Str :=
  strs ["email", "slaCompanyEmail", "agentEmail", "projectManagerEmailList",
        "homeownerEmail", "memberEmail"]

/-- type_transformations["url_fields"] (lines 125-130). -/
def url_fields : List Str :=
  strs ["redfinLink", "zillowLink", "pdfGeneratorUrl", "quotePdfUrl",
        "quoteUrl", "linkProjects1Title2", "link04ProjectsTitle",
        "contractUrl", "linkSla2Name", "initialsPublicUrl",
        "signaturePublicUrl", "signedPdfGeneratorUrl",
        "signedQuotePdfPublicUrl"]

/-- type_transformations["wix_url_fields"]["single_wix_urls"] (134-137). -/
def single_wix_urls : List Str :=
  strs ["initialsWixUrl", "signatureWixUrl", "image", "statusImage",
        "postedByProfileImage", "addToGallery"]

/-- type_transformations["wix_url_fields"]["array_wix_urls"] (139-142). -/
def array_wix_urls : List Str :=
  strs ["gallery", "images", "documents", "files", "uploadedMedia",
        "uploadedVideos", "uploadedDocuments"]

/-- type_transformations["wix_url_fields"]["document_wix_fields"] (144-147). -/
def document_wix_fields : List Str :=
  strs ["document", "signedDocument", "signature", "initials",
        "documentData", "signedContracts"]

/-- type_transformations["wix_url_fields"]["content_wix_fields"] (149-151). -/
def content_wix_fields : List Str :=
  strs ["body", "content"]

/-- Pairs of Lean string literals as character-list pairs. -/
def strPairs (l : List (String × String)) : List (Str × Str) :=
  l.map fun p => (p.1.data, p.2.data)

/-- field_mappings (lines 67-81), keyed by table base name. -/
def field_mappings (tb : Str) : List (Str × Str) :=
  if tb = "Legal".data then
    strPairs [("12LegalDocumentId", "legalDocumentId")]
  else if tb = "Projects".data then
    strPairs [("Project Manager Email List", "projectManagerEmailList"),
              ("Project Manager Phone", "projectManagerPhone"),
              ("Visitor ID", "visitorId"),
              ("Quote ID", "quoteId")]
  else if tb = "Requests".data then
    strPairs [("Uploded Documents", "uploadedDocuments"),
              ("Requested Slot", "requestedSlot")]
  else []

/-- exclude_fields (lines 84-87), keyed by table base name. -/
def exclude_fields (tb : Str) : List Str :=
  if tb = "Projects".data then strs ["item04Projects"] else []

/-- dict.get(field, field) on an association list. -/
def assocLookup (l : List (Str × Str)) (k : Str) : Option Str :=
  (l.find? fun p => p.1 = k).map (·.2)

/-- convert_wix_url_field lifted to scalar values: the leading guard returns
non-string (and falsy) values unchanged. -/
def convert_wix_url_field_p (gal : Str → Str) (v : PVal) (kind : WixKind) : PVal :=
  match v with
  | .pstr s => .pstr (convert_wix_url_field gal s kind)
  | _ => v

/-- The per-field dispatch of transform_item (lines 574-627): the if/elif
chain over the classification lists, applied to the renamed field name.
The result none models the two `continue` statements that drop the field
(invalid email, invalid URL). -/
def transformField (gal : Str → Str) (nf : Str) (v : PVal) : Option PVal :=
  if boolean_fields.contains nf then some (.pbool (convert_boolean_value v))
  else if integer_fields.contains nf then some (convert_numeric_value v .integer)
  else if decimal_fields.contains nf then some (convert_numeric_value v .decimal)
  else if email_fields.contains nf then
    match v with
    | .pstr s => (clean_email_value s).map .pstr
    | _ => some v
  else if single_wix_urls.contains nf then
    some (convert_wix_url_field_p gal v .single)
  else if array_wix_urls.contains nf then
    some (convert_wix_url_field_p gal v .array)
  else if document_wix_fields.contains nf then
    some (convert_wix_url_field_p gal v .document)
  else if content_wix_fields.contains nf then
    some (convert_wix_url_field_p gal v .content)
  else if url_fields.contains nf then
    match v with
    | .pstr s => (clean_url_value s).map .pstr
    | _ => some v
  else if string_fields.contains nf then some (.pstr (pyStr v))
  else
    match v with
    | .pdec q => some (if q.den = 1 then .pint q.num else .pfloat q)
    | v' => some v'

/-- Python dict assignment d[k] = v on an insertion-ordered association
list: update in place if the key exists, else append. -/
def setItem (k : Str) (v : PVal) : List (Str × PVal) → List (Str × PVal)
  | [] => [(k, v)]
  | (k0, v0) :: rest => if k0 = k then (k, v) :: rest else (k0, v0) :: setItem k v rest

/-- The field loop of transform_item (lines 556-634): exclusion, renaming,
the uppercase-ID special case, the null/empty pass-through, then dispatch. -/
def transformGo (gal : Str → Str) (tb : Str) :
    List (Str × PVal) → List (Str × PVal) → List (Str × PVal)
  | [], acc => acc
  | (f, v) :: rest, acc =>
    if (exclude_fields tb).contains f then transformGo gal tb rest acc
    else
      let nf0 := (assocLookup (field_mappings tb) f).getD f
      let nf := if f = "ID".data then "id".data else nf0
      if v = .pnull ∨ v = .pstr [] then
        transformGo gal tb rest (setItem nf .pnull acc)
      else
        match transformField gal nf v with
        | none => transformGo gal tb rest acc
        | some v2 => transformGo gal tb rest (setItem nf v2 acc)

/-- transform_item (lines 548-636). -/
def transform_item (gal : Str → Str) (item : List (Str × PVal)) (tb : Str) :
    List (Str × PVal) :=
  transformGo gal tb item []

/-! ## String normalizer and entity resolvers
(extract_properties.py, normalize_str lines 839-842, findMatchingContact
lines 844-901, findMatchingAddress lines 903-933).  The candidate pool that
the Python code streams from a CSV file is passed as a list; the
difflib.SequenceMatcher(None, a, b).ratio() > 0.85 comparison is standard
library behaviour and is passed as the Boolean parameter rGt. -/

/-- normalize_str (lines 839-842): strip, lowercase, and keep only
characters in [a-z0-9]. -/
def normalize_str (s : Str) : Str :=
  (lowerStr (pyStrip s)).filter fun c => ('a' ≤ c && c ≤ 'z') || c.isDigit

/-- A possibly-missing CSV field (row.get of a DictReader row), normalized:
normalize_str maps both None and the empty string to the empty string. -/
def normO : Option Str → Str
  | none => []
  | some s => normalize_str s

/-- The query fields of findMatchingContact (all optional but email is the
only one that can make a candidate reach the threshold). -/
structure CQuery where
  email : Option Str
  fullName : Option Str
  firstName : Option Str
  lastName : Option Str
  phone : Option Str
deriving DecidableEq

/-- One row of the Contacts reference CSV as read by findMatchingContact. -/
structure CRow where
  fullName : Option Str
  email : Option Str
  firstName : Option Str
  lastName : Option Str
  phone : Option Str
  mobile : Option Str
deriving DecidableEq

/-- The email category of the score (lines 869-875): exact 100, containment
either direction 60, fuzzy 40; zero when the query email normalizes empty. -/
def emailScore (rGt : Str → Str → Bool) (ne ce : Str) : Nat :=
  if ne ≠ [] ∧ ce = ne then 100
  else if ne ≠ [] ∧ (containsSub ce ne || containsSub ne ce) = true then 60
  else if ne ≠ [] ∧ rGt ne ce = true then 40
  else 0

/-- The full-name category of the score (lines 876-882). -/
def fullScore (rGt : Str → Str → Bool) (nf cf : Str) : Nat :=
  if nf ≠ [] ∧ cf = nf then 30
  else if nf ≠ [] ∧ (containsSub cf nf || containsSub nf cf) = true then 20
  else if nf ≠ [] ∧ rGt nf cf = true then 10
  else 0

/-- The first+last category of the score (lines 883-890): an if/elif chain,
so the two containment bonuses are mutually exclusive. -/
def flScore (nfi nla cfi cla : Str) : Nat :=
  if nfi ≠ [] ∧ nla ≠ [] then
    if cfi = nfi ∧ cla = nla then 10
    else if (containsSub cfi nfi || containsSub nfi cfi) = true then 5
    else if (containsSub cla nla || containsSub nla cla) = true then 5
    else 0
  else 0

/-- The phone category of the score (lines 891-893). -/
def phoneScore (np cp cm : Str) : Nat :=
  if np ≠ [] ∧ (cp = np ∨ cm = np) then 5 else 0

/-- The accumulated score of one candidate row (lines 862-893). -/
def scoreContact (rGt : Str → Str → Bool) (q : CQuery) (r : CRow) : Nat :=
  emailScore rGt (normO q.email) (normO r.email) +
    fullScore rGt (normO q.fullName) (normO r.fullName) +
    flScore (normO q.firstName) (normO q.lastName)
      (normO r.firstName) (normO r.lastName) +
    phoneScore (normO q.phone) (normO r.phone) (normO r.mobile)

/-- The scan loop of findMatchingContact (lines 859-897): keep the first
candidate with a strictly greater score. -/
def loopBest (rGt : Str → Str → Bool) (q : CQuery) :
    List CRow → Nat → Option CRow → Nat × Option CRow
  | [], b, r => (b, r)
  | c :: rest, b, r =>
    let s := scoreContact rGt q c
    if b < s then loopBest rGt q rest s (some c)
    else loopBest rGt q rest b r

/-- findMatchingContact (lines 844-901): best candidate if its score reaches
the threshold 60, else none. -/
def findMatchingContact (rGt : Str → Str → Bool) (q : CQuery)
    (rows : List CRow) : Option CRow :=
  let p := loopBest rGt q rows 0 none
  if 60 ≤ p.1 then p.2 else none

/-- One row of the Properties reference CSV as read by findMatchingAddress. -/
structure ARow where
  propertyFullAddress : Option Str
  houseAddress : Option Str
deriving DecidableEq

/-- The scan loop of findMatchingAddress (lines 921-932): first candidate
whose normalized full address shares the 10-character key; when the
normalized house address of the query is nonempty, only return a candidate
whose nonempty normalized house address equals it, else keep scanning. -/
def findAddrGo (key nh : Str) : List ARow → Option ARow
  | [] => none
  | r :: rest =>
    if (normalize_str (r.propertyFullAddress.getD [])).take 10 = key then
      if nh ≠ [] then
        let rh := normalize_str (r.houseAddress.getD [])
        if rh ≠ [] ∧ rh = nh then some r else findAddrGo key nh rest
      else some r
    else findAddrGo key nh rest

/-- findMatchingAddress (lines 903-933).  norm_addr duplicates normalize_str
verbatim; a houseAddress that is absent, empty, or normalizes to the empty
string all collapse to the same falsy norm_house in the Python code and are
modelled by the empty normalized string. -/
def findMatchingAddress (full : Str) (house : Option Str)
    (rows : List ARow) : Option ARow :=
  let nf := normalize_str full
  let nh := match house with | none => [] | some h => normalize_str h
  if nf = [] then none
  else findAddrGo (nf.take 10) nh rows

/-! ## General lemmas about the string primitives -/

theorem startsWith_iff {p s : Str} : startsWith p s = true ↔ p <+: s := by
  simp [startsWith]

theorem endsWith_iff {p s : Str} : endsWith p s = true ↔ p <:+ s := by
  simp [endsWith]

theorem containsSub_iff {s pat : Str} : containsSub s pat = true ↔ pat <:+: s := by
  induction s with
  | nil => simp [containsSub, List.isEmpty_iff]
  | cons c rest ih =>
    rw [containsSub, List.infix_cons_iff]
    simp [ih]

/-- A helper witness parameter: the abstracted gallery-array branch taken as
the identity (any function would do; no theorem depends on it). -/
def idGal : Str → Str :=
  fun s => s

/-- A helper witness parameter: the abstracted fuzzy-ratio comparison taken
as constantly false (any function would do). -/
def falseRatioGt : Str → Str → Bool :=
  fun _ _ => false

theorem splitOnChar_ne_nil {sep : Char} {s : Str} : splitOnChar sep s ≠ [] := by
  induction s with
  | nil => simp [splitOnChar]
  | cons c rest ih =>
    rw [splitOnChar]
    cases h : splitOnChar sep rest with
    | nil => exact absurd h ih
    | cons a t => by_cases hc : c = sep <;> simp [hc]

theorem splitOnChar_headD {sep : Char} (s : Str) :
    (splitOnChar sep s).headD [] = s.takeWhile (fun c => c != sep) := by
  induction s with
  | nil => rfl
  | cons c rest ih =>
    rw [splitOnChar]
    cases h : splitOnChar sep rest with
    | nil => exact absurd h splitOnChar_ne_nil
    | cons a t =>
      by_cases hc : c = sep
      · subst hc; simp [List.takeWhile_cons]
      · simp only [if_neg hc, List.headD_cons, List.takeWhile_cons]
        have : (c != sep) = true := by simp [hc]
        rw [this]
        simp only [if_true]
        rw [← ih, h]
        rfl

theorem splitOnChar_no_sep {sep : Char} {l : Str} (h : sep ∉ l) :
    splitOnChar sep l = [l] := by
  induction l with
  | nil => rfl
  | cons c rest ih =>
    have hc : ¬ c = sep := fun hce => h (hce ▸ List.mem_cons_self c rest)
    have hr : sep ∉ rest := fun hm => h (List.mem_cons_of_mem c hm)
    rw [splitOnChar, ih hr]
    simp [hc]

theorem splitOnChar_append_cons {sep : Char} {l r : Str} (h : sep ∉ l) :
    splitOnChar sep (l ++ sep :: r) = l :: splitOnChar sep r := by
  induction l with
  | nil =>
    rw [List.nil_append, splitOnChar]
    cases hs : splitOnChar sep r with
    | nil => exact absurd hs splitOnChar_ne_nil
    | cons a t => simp
  | cons c rest ih =>
    have hc : ¬ c = sep := fun hce => h (hce ▸ List.mem_cons_self c rest)
    have hr : sep ∉ rest := fun hm => h (List.mem_cons_of_mem c hm)
    rw [List.cons_append, splitOnChar, ih hr]
    simp [hc]

theorem containsSub_cons {c : Char} {rest pat : Str} :
    containsSub (c :: rest) pat =
      (List.isPrefixOf pat (c :: rest) || containsSub rest pat) := rfl

theorem replaceAllAux_no_occ {pat rep : Str} :
    ∀ (fuel : Nat) (s : Str), s.length ≤ fuel → containsSub s pat = false →
      replaceAllAux pat rep fuel s = s := by
  intro fuel
  induction fuel with
  | zero => intro s _ _; rfl
  | succ n ih =>
    intro s hlen hno
    cases s with
    | nil => rfl
    | cons c rest =>
      rw [containsSub_cons, Bool.or_eq_false_iff] at hno
      rw [replaceAllAux, if_neg (by simp [startsWith, hno.1])]
      have : rest.length ≤ n := by simpa using hlen
      rw [ih rest this hno.2]

theorem replaceAll_pref {pat rest : Str} (hp : pat ≠ [])
    (h : containsSub rest pat = false) :
    replaceAll pat [] (pat ++ rest) = rest := by
  cases pat with
  | nil => exact absurd rfl hp
  | cons c p =>
    show replaceAllAux (c :: p) [] ((c :: p) ++ rest).length ((c :: p) ++ rest) = rest
    have hsw : startsWith (c :: p) (c :: (p ++ rest)) = true := by
      rw [startsWith_iff]
      exact List.prefix_append (c :: p) rest
    simp only [List.cons_append, List.length_cons]
    rw [replaceAllAux, if_pos hsw]
    simp only [List.length_cons, Nat.add_sub_cancel, List.nil_append]
    rw [List.drop_left' rfl]
    exact replaceAllAux_no_occ _ _ (by simp) h

/-! ## C4: numeric coercion of "abc" and "3.14"
(convert_numeric_value, lines 245-284) -/

/-- C4 counterexample: the claim says coerce("abc", integer) keeps the
original value "abc" with a soft failure; the code instead strips all
non-numeric characters, obtains the empty string, and returns None — the
value IS silently replaced by null. -/
theorem c4_counterexample :
    convert_numeric_value (.pstr "abc".data) .integer = .pnull ∧
    convert_numeric_value (.pstr "abc".data) .integer ≠ .pstr "abc".data := by
  exact ⟨by decide, by decide⟩

/-- C4 (amended): coercing "abc" to integer yields null (the cleaning step
leaves an empty string, which the code maps to null before any parse is
attempted); the original value is kept, with a soft failure, only when the
cleaned string is nonempty, is not just a sign or dot, and still fails
numeric parsing (e.g. "1.2.3"); and coercing "3.14" to decimal yields the
exact decimal 3.14. -/
theorem c4_amended :
    convert_numeric_value (.pstr "abc".data) .integer = .pnull ∧
    convert_numeric_value (.pstr "3.14".data) .decimal = .pdec (157 / 50 : Rat) ∧
    (∀ s : Str, (pyStrip s).isEmpty = false →
      (s.filter isNumKeep).isEmpty = false →
      s.filter isNumKeep ≠ "-".data →
      s.filter isNumKeep ≠ ".".data →
      validNum (s.filter isNumKeep) = false →
      convert_numeric_value (.pstr s) .integer = .pstr s) := by
  have hrat : ratOfNum "3.14".data = (157 / 50 : Rat) := by
    rw [ratOfNum]
    rw [show startsWith "-".data "3.14".data = false from by decide]
    simp only [Bool.false_eq_true, if_false]
    rw [show splitOnChar '.' "3.14".data = ["3".data, "14".data] from by decide]
    show (digitsToNat "3".data : Rat) +
        (digitsToNat "14".data : Rat) / 10 ^ "14".data.length = 157 / 50
    rw [show digitsToNat "3".data = 3 from by decide]
    rw [show digitsToNat "14".data = 14 from by decide]
    norm_num
  have hdec : convert_numeric_value (.pstr "3.14".data) .decimal =
      .pdec (ratOfNum "3.14".data) := by rfl
  refine ⟨by decide, by rw [hdec, hrat], ?_⟩
  intro s h1 h2 h3 h4 h5
  have hs : s.isEmpty = false := by
    cases s with
    | nil => simp [pyStrip] at h1
    | cons a t => rfl
  rw [convert_numeric_value]
  simp only [hs, h1, h2, h3, h4, h5]
  simp

/-- Witness for the amended C4: the cleaned string "1.2.3" fails numeric
parsing and the original value is kept. -/
theorem c4_witness :
    validNum ("1.2.3".data.filter isNumKeep) = false ∧
    convert_numeric_value (.pstr "1.2.3".data) .integer = .pstr "1.2.3".data :=
  ⟨by decide,
   c4_amended.2.2 "1.2.3".data (by decide) (by decide) (by decide)
     (by decide) (by decide)⟩

/-! ## C6: uniqueness of the field classification
(type_transformations, lines 90-153, and the transform_item dispatch,
lines 574-620) -/

/-- C6 counterexample: the field name "order" belongs to BOTH the integer
and the decimal classification lists, so the classification lists are not
pairwise disjoint as the claim states. -/
theorem c6_counterexample :
    "order".data ∈ integer_fields ∧ "order".data ∈ decimal_fields := by
  exact ⟨by decide, by decide⟩

/-- C6 (amended): the classification lists are not pairwise disjoint
("order" is in both the integer and the decimal lists), but the per-field
dispatch is an if/elif chain that applies only the FIRST matching list in a
fixed priority order, so every field still receives at most one effective
transformation; in particular every field in both the integer and decimal
lists is always coerced as an integer and its decimal classification is
dead. -/
theorem c6_amended :
    ("order".data ∈ integer_fields ∧ "order".data ∈ decimal_fields) ∧
    ∀ (gal : Str → Str) (f : Str) (v : PVal),
      f ∈ integer_fields → f ∈ decimal_fields →
      transformField gal f v = some (convert_numeric_value v .integer) := by
  refine ⟨⟨by decide, by decide⟩, ?_⟩
  intro gal f v h1 h2
  have h1' : f = "numEmployees".data ∨ f = "order".data ∨ f = "floors".data ∨
      f = "yearBuilt".data ∨ f = "quoteNumber".data ∨
      f = "openEscrowWithinDays".data ∨ f = "accountExecutive".data ∨
      f = "bedrooms".data ∨ f = "bathrooms".data := by
    simpa [integer_fields, strs] using h1
  clear h2
  rcases h1' with h | h | h | h | h | h | h | h | h <;> subst h <;> rfl

/-- Witness for the amended C6 at the concrete overlapping field "order". -/
theorem c6_witness :
    transformField idGal "order".data (.pstr "2".data) =
      some (convert_numeric_value (.pstr "2".data) .integer) :=
  c6_amended.2 idGal "order".data (.pstr "2".data) (by decide) (by decide)

/-! ## C3: the first+last containment bonuses
(findMatchingContact, lines 883-890) -/

/-- C3 counterexample: query first name "ab" and last name "cd", candidate
first name "abx" and last name "cdx": both containment matches hold and the
exact first-and-last case does not apply, yet the accumulated score is 5,
not the 10 the claim asserts — the two +5 bonuses sit on an if/elif chain
and are mutually exclusive. -/
theorem c3_counterexample :
    containsSub "abx".data "ab".data = true ∧
    containsSub "cdx".data "cd".data = true ∧
    ¬ ("abx".data = "ab".data ∧ "cdx".data = "cd".data) ∧
    scoreContact falseRatioGt
      ⟨none, none, some "ab".data, some "cd".data, none⟩
      ⟨none, none, some "abx".data, some "cdx".data, none, none⟩ = 5 := by
  exact ⟨by decide, by decide, by decide, by decide⟩

/-- C3 (amended): when the query supplies both first and last name, the
exact first-and-last case does not apply, and the first-name containment
match holds, the candidate receives +5 once for the whole first+last
category — the last-name containment branch is on the same if/elif chain
and is never added on top. -/
theorem c3_amended :
    ∀ (rGt : Str → Str → Bool) (q : CQuery) (r : CRow),
      q.email = none → q.fullName = none → q.phone = none →
      normO q.firstName ≠ [] → normO q.lastName ≠ [] →
      ¬ (normO r.firstName = normO q.firstName ∧
         normO r.lastName = normO q.lastName) →
      (containsSub (normO r.firstName) (normO q.firstName) ||
       containsSub (normO q.firstName) (normO r.firstName)) = true →
      scoreContact rGt q r = 5 := by
  intro rGt q r he hf hp h1 h2 h3 h4
  rw [scoreContact, he, hf, hp]
  rw [show normO none = [] from rfl]
  rw [show emailScore rGt [] (normO r.email) = 0 by simp [emailScore]]
  rw [show fullScore rGt [] (normO r.fullName) = 0 by simp [fullScore]]
  rw [show phoneScore [] (normO r.phone) (normO r.mobile) = 0 by
    simp [phoneScore]]
  rw [flScore, if_pos ⟨h1, h2⟩, if_neg h3, if_pos h4]

/-- Witness for the amended C3 at the concrete counterexample inputs. -/
theorem c3_witness :
    scoreContact falseRatioGt
      ⟨none, none, some "ab".data, some "cd".data, none⟩
      ⟨none, none, some "ab cd".data, some "x".data, none, none⟩ = 5 :=
  c3_amended falseRatioGt _ _ rfl rfl rfl (by decide) (by decide)
    (by decide) (by decide)

/-! ## C9: wix:document conversion
(convert_wix_document_url, lines 1084-1132) -/

/-- C9: a wix:document URI with at least two path segments after the
(v1/ or v1/ugd/) version prefix converts to the structured record whose
filename is the second path segment and whose public URL is the fixed
prefix followed by the document id (the first segment); a URI whose path
has fewer than two segments yields the explicit error record instead of a
silent pass-through (the internally raised ValueError is caught and
converted to the error record, so nothing escapes the public contract).
The containsSub side conditions state that the marker substrings occur
nowhere else, matching Python str.replace which removes every occurrence. -/
theorem c9_document_url :
    (∀ d f : Str, '/' ∉ d →
      containsSub ("v1/ugd/".data ++ (d ++ '/' :: f)) "wix:document://".data = false →
      containsSub (d ++ '/' :: f) "v1/ugd/".data = false →
      convert_wix_document_url ("wix:document://v1/ugd/".data ++ (d ++ '/' :: f)) =
        .ok (f.takeWhile (fun c => c != '/')) (publicUrlStem ++ d)) ∧
    (∀ d f : Str, '/' ∉ d →
      containsSub ("v1/".data ++ (d ++ '/' :: f)) "wix:document://".data = false →
      containsSub (d ++ '/' :: f) "v1/".data = false →
      startsWith "v1/ugd/".data ("v1/".data ++ (d ++ '/' :: f)) = false →
      convert_wix_document_url ("wix:document://v1/".data ++ (d ++ '/' :: f)) =
        .ok (f.takeWhile (fun c => c != '/')) (publicUrlStem ++ d)) ∧
    (∀ d : Str, '/' ∉ d →
      containsSub ("v1/".data ++ d) "wix:document://".data = false →
      containsSub d "v1/".data = false →
      convert_wix_document_url ("wix:document://v1/".data ++ d) =
        .err ("Invalid Wix document URL structure: ".data ++
          ("wix:document://v1/".data ++ d))) := by
  refine ⟨?_, ?_, ?_⟩
  · intro d f hd h1 h2
    rw [show "wix:document://v1/ugd/".data =
        "wix:document://".data ++ "v1/ugd/".data from by decide,
      List.append_assoc]
    have hwix : is_wix_document_url
        ("wix:document://".data ++ ("v1/ugd/".data ++ (d ++ '/' :: f))) = true :=
      startsWith_iff.mpr (List.prefix_append _ _)
    have hrep1 : replaceAll "wix:document://".data []
        ("wix:document://".data ++ ("v1/ugd/".data ++ (d ++ '/' :: f))) =
        "v1/ugd/".data ++ (d ++ '/' :: f) :=
      replaceAll_pref (by decide) h1
    have hsw : startsWith "v1/ugd/".data ("v1/ugd/".data ++ (d ++ '/' :: f)) = true :=
      startsWith_iff.mpr (List.prefix_append _ _)
    have hrep2 : replaceAll "v1/ugd/".data [] ("v1/ugd/".data ++ (d ++ '/' :: f)) =
        d ++ '/' :: f :=
      replaceAll_pref (by decide) h2
    have hsp : splitOnChar '/' (d ++ '/' :: f) = d :: splitOnChar '/' f :=
      splitOnChar_append_cons hd
    have hlen : ¬ (d :: splitOnChar '/' f).length < 2 := by
      have := List.length_pos.mpr (@splitOnChar_ne_nil '/' f)
      simp only [List.length_cons]
      omega
    rw [convert_wix_document_url, if_neg (not_not_intro hwix)]
    simp only [hrep1, hsw, true_or, if_true, hrep2, hsp, if_neg hlen,
      List.drop_succ_cons, List.drop_zero, List.headD_cons]
    rw [splitOnChar_headD]
  · intro d f hd h1 h2 hnu
    rw [show "wix:document://v1/".data =
        "wix:document://".data ++ "v1/".data from by decide,
      List.append_assoc]
    have hwix : is_wix_document_url
        ("wix:document://".data ++ ("v1/".data ++ (d ++ '/' :: f))) = true :=
      startsWith_iff.mpr (List.prefix_append _ _)
    have hrep1 : replaceAll "wix:document://".data []
        ("wix:document://".data ++ ("v1/".data ++ (d ++ '/' :: f))) =
        "v1/".data ++ (d ++ '/' :: f) :=
      replaceAll_pref (by decide) h1
    have hsw : startsWith "v1/".data ("v1/".data ++ (d ++ '/' :: f)) = true :=
      startsWith_iff.mpr (List.prefix_append _ _)
    have hrep2 : replaceAll "v1/".data [] ("v1/".data ++ (d ++ '/' :: f)) =
        d ++ '/' :: f :=
      replaceAll_pref (by decide) h2
    have hsp : splitOnChar '/' (d ++ '/' :: f) = d :: splitOnChar '/' f :=
      splitOnChar_append_cons hd
    have hlen : ¬ (d :: splitOnChar '/' f).length < 2 := by
      have := List.length_pos.mpr (@splitOnChar_ne_nil '/' f)
      simp only [List.length_cons]
      omega
    rw [convert_wix_document_url, if_neg (not_not_intro hwix)]
    simp only [hrep1, hnu, hsw, Bool.false_eq_true, false_or, true_or,
      if_true, if_false, hrep2, hsp, if_neg hlen,
      List.drop_succ_cons, List.drop_zero, List.headD_cons]
    rw [splitOnChar_headD]
  · intro d hd h1 h2
    rw [show "wix:document://v1/".data =
        "wix:document://".data ++ "v1/".data from by decide,
      List.append_assoc]
    have hwix : is_wix_document_url
        ("wix:document://".data ++ ("v1/".data ++ d)) = true :=
      startsWith_iff.mpr (List.prefix_append _ _)
    have hrep1 : replaceAll "wix:document://".data []
        ("wix:document://".data ++ ("v1/".data ++ d)) = "v1/".data ++ d :=
      replaceAll_pref (by decide) h1
    have hnu : startsWith "v1/ugd/".data ("v1/".data ++ d) = false := by
      cases hsw : startsWith "v1/ugd/".data ("v1/".data ++ d) with
      | false => rfl
      | true =>
        exfalso
        have hpre := startsWith_iff.mp hsw
        rw [show "v1/ugd/".data = "v1/".data ++ "ugd/".data from by decide] at hpre
        have : "ugd/".data <+: d := (List.prefix_append_right_inj _).mp hpre
        obtain ⟨t, ht⟩ := this
        exact hd (ht ▸ List.mem_append_left t (by decide : '/' ∈ "ugd/".data))
    have hsw : startsWith "v1/".data ("v1/".data ++ d) = true :=
      startsWith_iff.mpr (List.prefix_append _ _)
    have hrep2 : replaceAll "v1/".data [] ("v1/".data ++ d) = d :=
      replaceAll_pref (by decide) h2
    have hsp : splitOnChar '/' d = [d] := splitOnChar_no_sep hd
    rw [convert_wix_document_url, if_neg (not_not_intro hwix)]
    simp only [hrep1, hnu, hsw, Bool.false_eq_true, false_or, true_or,
      if_true, if_false, hrep2, hsp]
    simp

/-- Witness for C9: the scenario URI converts to the structured record, and
a one-segment URI yields the error record. -/
theorem c9_witness :
    convert_wix_document_url
        "wix:document://v1/2d321c_8011271.pdf/report.pdf".data =
      .ok "report.pdf".data (publicUrlStem ++ "2d321c_8011271.pdf".data) ∧
    convert_wix_document_url "wix:document://v1/onlyone".data =
      .err ("Invalid Wix document URL structure: ".data ++
        "wix:document://v1/onlyone".data) := by
  constructor
  · have h := c9_document_url.2.1 "2d321c_8011271.pdf".data "report.pdf".data
      (by decide) (by decide) (by decide) (by decide)
    rw [show "wix:document://v1/".data ++
        ("2d321c_8011271.pdf".data ++ '/' :: "report.pdf".data) =
        "wix:document://v1/2d321c_8011271.pdf/report.pdf".data from by decide] at h
    rw [h]
    decide
  · have h := c9_document_url.2.2 "onlyone".data (by decide) (by decide) (by decide)
    rw [show "wix:document://v1/".data ++ "onlyone".data =
        "wix:document://v1/onlyone".data from by decide] at h
    rw [h]

/-! ## C2, C10: contact resolution threshold and score invariants
(findMatchingContact, lines 844-901) -/

theorem containsSub_nil_pat {s : Str} : containsSub s [] = true := by
  cases s <;> simp [containsSub]

theorem emailScore_empty {rGt : Str → Str → Bool} {ce : Str} :
    emailScore rGt [] ce = 0 := by
  simp [emailScore]

theorem fullScore_le {rGt : Str → Str → Bool} {nf cf : Str} :
    fullScore rGt nf cf ≤ 30 := by
  rw [fullScore]
  split_ifs <;> norm_num

theorem flScore_le {nfi nla cfi cla : Str} :
    flScore nfi nla cfi cla ≤ 10 := by
  rw [flScore]
  split_ifs <;> norm_num

theorem phoneScore_le {np cp cm : Str} : phoneScore np cp cm ≤ 5 := by
  rw [phoneScore]
  split_ifs <;> norm_num

theorem scoreContact_le_of_no_email {rGt : Str → Str → Bool} {q : CQuery}
    (hq : normO q.email = []) (r : CRow) : scoreContact rGt q r ≤ 45 := by
  rw [scoreContact, hq, emailScore_empty]
  have h1 := @fullScore_le rGt (normO q.fullName) (normO r.fullName)
  have h2 := @flScore_le (normO q.firstName) (normO q.lastName)
    (normO r.firstName) (normO r.lastName)
  have h3 := @phoneScore_le (normO q.phone) (normO r.phone)
    (normO r.mobile)
  omega

theorem loopBest_inv {rGt : Str → Str → Bool} {q : CQuery} :
    ∀ (rows : List CRow) (b : Nat) (r : Option CRow),
      (∀ r0, r = some r0 → scoreContact rGt q r0 = b) →
      ∀ r1, (loopBest rGt q rows b r).2 = some r1 →
        scoreContact rGt q r1 = (loopBest rGt q rows b r).1 := by
  intro rows
  induction rows with
  | nil => intro b r hr r1 h1; exact hr r1 h1
  | cons c rest ih =>
    intro b r hr r1
    rw [loopBest]
    by_cases hlt : b < scoreContact rGt q c
    · rw [if_pos hlt]
      exact ih _ _ (fun r0 h0 => by injection h0 with h0; rw [← h0]) r1
    · rw [if_neg hlt]
      exact ih _ _ hr r1

theorem loopBest_le {rGt : Str → Str → Bool} {q : CQuery}
    (hall : ∀ c : CRow, scoreContact rGt q c ≤ 45) :
    ∀ (rows : List CRow) (b : Nat) (r : Option CRow), b ≤ 45 →
      (loopBest rGt q rows b r).1 ≤ 45 := by
  intro rows
  induction rows with
  | nil => intro b r hb; exact hb
  | cons c rest ih =>
    intro b r hb
    rw [loopBest]
    by_cases hlt : b < scoreContact rGt q c
    · rw [if_pos hlt]; exact ih _ _ (hall c)
    · rw [if_neg hlt]; exact ih _ _ hb

/-- C2: a non-null result of findMatchingContact has an accumulated score of
at least 60; with an absent or empty query email the email category scores
zero and full-name, first/last and phone together reach at most 45, so the
resolver returns no match regardless of the other query fields. -/
theorem c2_threshold :
    ∀ (rGt : Str → Str → Bool) (q : CQuery) (rows : List CRow),
      (∀ r : CRow, findMatchingContact rGt q rows = some r →
        60 ≤ scoreContact rGt q r) ∧
      (normO q.email = [] → ∀ r : CRow, scoreContact rGt q r ≤ 45) ∧
      (normO q.email = [] → findMatchingContact rGt q rows = none) := by
  intro rGt q rows
  refine ⟨?_, fun hq r => scoreContact_le_of_no_email hq r, ?_⟩
  · intro r hr
    rw [findMatchingContact] at hr
    by_cases h60 : 60 ≤ (loopBest rGt q rows 0 none).1
    · rw [if_pos h60] at hr
      have := loopBest_inv rows 0 none (fun r0 h0 => by cases h0) r hr
      omega
    · rw [if_neg h60] at hr
      cases hr
  · intro hq
    rw [findMatchingContact]
    have hle := @loopBest_le rGt q
      (fun c => scoreContact_le_of_no_email hq c) rows 0 none (by norm_num)
    rw [if_neg (by omega)]

/-- Witness for C2: an exact-email candidate is returned with score at least
60, and a query with no email returns no match even against a candidate
agreeing on every name and phone field. -/
theorem c2_witness :
    (60 ≤ scoreContact falseRatioGt
      ⟨some "a@x.com".data, none, none, none, none⟩
      ⟨none, some "a@x.com".data, none, none, none, none⟩) ∧
    findMatchingContact falseRatioGt
      ⟨none, some "John Smith".data, some "John".data, some "Smith".data,
        some "5551234".data⟩
      [⟨some "John Smith".data, some "j@x.co".data, some "John".data,
        some "Smith".data, some "5551234".data, none⟩] = none := by
  constructor
  · exact (c2_threshold falseRatioGt
      ⟨some "a@x.com".data, none, none, none, none⟩
      [⟨none, some "a@x.com".data, none, none, none, none⟩]).1
      ⟨none, some "a@x.com".data, none, none, none, none⟩ (by decide)
  · exact (c2_threshold falseRatioGt
      ⟨none, some "John Smith".data, some "John".data, some "Smith".data,
        some "5551234".data⟩
      [⟨some "John Smith".data, some "j@x.co".data, some "John".data,
        some "Smith".data, some "5551234".data, none⟩]).2.2 rfl

/-- C10: when the query email is nonempty, a candidate whose email field is
missing or normalizes to the empty string gets the +60 containment bonus
(the empty string is a substring of every string), so it reaches the
acceptance threshold and is in fact returned from a pool containing it. -/
theorem c10_empty_email_scores :
    ∀ (rGt : Str → Str → Bool) (q : CQuery) (c : CRow),
      normO q.email ≠ [] → normO c.email = [] →
      emailScore rGt (normO q.email) (normO c.email) = 60 ∧
      60 ≤ scoreContact rGt q c ∧
      findMatchingContact rGt q [c] = some c := by
  intro rGt q c hne hce
  have hes : emailScore rGt (normO q.email) (normO c.email) = 60 := by
    rw [hce, emailScore, if_neg (fun h => hne h.2.symm),
      if_pos ⟨hne, by simp [containsSub_nil_pat]⟩]
  have h60 : 60 ≤ scoreContact rGt q c := by
    rw [scoreContact, hes]
    omega
  refine ⟨hes, h60, ?_⟩
  rw [findMatchingContact]
  have h1 : loopBest rGt q [c] 0 none = (scoreContact rGt q c, some c) := by
    rw [loopBest, if_pos (by omega : 0 < scoreContact rGt q c), loopBest]
  rw [h1, if_pos (by simpa using h60)]

/-- Witness for C10: a candidate with no email data is matched against the
query email "a@x.com" at exactly the threshold. -/
theorem c10_witness :
    findMatchingContact falseRatioGt
      ⟨some "a@x.com".data, none, none, none, none⟩
      [⟨some "z".data, none, none, none, none, none⟩] =
      some ⟨some "z".data, none, none, none, none, none⟩ :=
  (c10_empty_email_scores falseRatioGt
    ⟨some "a@x.com".data, none, none, none, none⟩
    ⟨some "z".data, none, none, none, none, none⟩
    (by decide) rfl).2.2

/-! ## C7: address resolution
(findMatchingAddress, lines 903-933) -/

theorem findAddrGo_house {key nh : Str} (hnh : nh ≠ []) :
    ∀ (rows : List ARow) (r : ARow), findAddrGo key nh rows = some r →
      (normalize_str (r.propertyFullAddress.getD [])).take 10 = key ∧
      normalize_str (r.houseAddress.getD []) = nh := by
  intro rows
  induction rows with
  | nil => intro r h; cases h
  | cons a rest ih =>
    intro r h
    rw [findAddrGo] at h
    by_cases hk : (normalize_str (a.propertyFullAddress.getD [])).take 10 = key
    · rw [if_pos hk, if_pos hnh] at h
      by_cases hh : normalize_str (a.houseAddress.getD []) ≠ [] ∧
          normalize_str (a.houseAddress.getD []) = nh
      · rw [if_pos hh] at h
        injection h with h
        subst h
        exact ⟨hk, hh.2⟩
      · rw [if_neg hh] at h
        exact ih r h
    · rw [if_neg hk] at h
      exact ih r h

/-- C7 counterexample: the query supplies the houseAddress "," (a non-null,
nonempty string), which normalizes to the empty string; the code then treats
the house address as absent and falls back to the prefix-only match,
returning a candidate whose normalized house address differs from the
query's — contradicting "returns only a candidate whose normalized
house-address field equals the query's normalized house address exactly". -/
theorem c7_counterexample :
    findMatchingAddress "123 Main St, Springfield, IL, 62704".data
      (some ",".data)
      [⟨some "123 Main St Somewhere".data, some "999 Wrong".data⟩] =
      some ⟨some "123 Main St Somewhere".data, some "999 Wrong".data⟩ ∧
    normalize_str "999 Wrong".data ≠ normalize_str ",".data := by
  exact ⟨by decide, by decide⟩

/-- C7 (amended): when houseAddress is supplied AND normalizes to a nonempty
string, findMatchingAddress returns only a candidate whose normalized full
address shares the query's first-10-normalized-character prefix and whose
normalized house-address field equals the query's normalized house address
exactly (no prefix-only fallback for any candidate); a query whose
normalized full address is empty immediately yields no match. -/
theorem c7_amended :
    ∀ (full : Str) (house : Option Str) (rows : List ARow),
      (normalize_str full = [] → findMatchingAddress full house rows = none) ∧
      (∀ h r, house = some h → normalize_str h ≠ [] →
        findMatchingAddress full house rows = some r →
        (normalize_str (r.propertyFullAddress.getD [])).take 10 =
          (normalize_str full).take 10 ∧
        normalize_str (r.houseAddress.getD []) = normalize_str h) := by
  intro full house rows
  constructor
  · intro hf
    simp only [findMatchingAddress]
    rw [if_pos hf]
  · intro h r hh hn hfind
    subst hh
    simp only [findMatchingAddress] at hfind
    by_cases hf : normalize_str full = []
    · rw [if_pos hf] at hfind; cases hfind
    · rw [if_neg hf] at hfind
      exact findAddrGo_house hn rows r hfind

/-- Witness for the amended C7: the scenario query returns the candidate
whose normalized prefix is "123mainst"-based and whose house address also
normalizes to the query's. -/
theorem c7_witness :
    (normalize_str
      ((ARow.mk (some "123 Main St, Springfield, IL, 62704".data)
        (some "123 Main St".data)).houseAddress.getD [])) =
      normalize_str "123 Main St".data ∧
    findMatchingAddress "".data (some "x".data) [] = none := by
  constructor
  · exact ((c7_amended "123 Main St, Springfield, IL, 62704".data
      (some "123 Main St".data)
      [⟨some "123 Main St, Springfield, IL, 62704".data,
        some "123 Main St".data⟩]).2 "123 Main St".data
      ⟨some "123 Main St, Springfield, IL, 62704".data,
        some "123 Main St".data⟩ rfl (by decide) (by decide)).2
  · exact (c7_amended "".data (some "x".data) []).1 (by decide)

/-! ## C5: email fields with no valid email substring
(clean_email_value, lines 202-218, and the email branch of transform_item,
lines 587-594) -/

/-- The composite email extraction inside clean_email_value: the gate on
"@"/"%40", the regex search, the %40 decoding and the anchored validation;
none when no valid email substring is extracted. -/
def emailFound (s : Str) : Option Str :=
  if containsSub s "%40".data || containsSub s "@".data then
    match emailSearch s with
    | some g =>
      let email := replaceAll "%40".data "@".data g
      if emailValidate email then some email else none
    | none => none
  else none

theorem clean_email_eq (s : Str) :
    clean_email_value s =
      match emailFound s with
      | some e => some e
      | none => if startsWith "/".data s then none else some s := by
  rw [clean_email_value, emailFound]
  by_cases hg : (containsSub s "%40".data || containsSub s "@".data) = true
  · rw [if_pos hg, if_pos hg]
    cases hs : emailSearch s with
    | none => rfl
    | some g =>
      by_cases hv : emailValidate (replaceAll "%40".data "@".data g) = true
      · simp only [hv, if_true]
      · simp only [hv, Bool.false_eq_true, if_false]
  · rw [if_neg hg, if_neg hg]

/-- C5 counterexample: the value "abc" contains no valid email substring
(no "@" and no "%40" at all), yet the transformed record KEEPS the field
with its original value instead of dropping it — the drop only happens for
values that start with "/". -/
theorem c5_counterexample :
    emailFound "abc".data = none ∧
    transform_item idGal [("email".data, .pstr "abc".data)] "Contacts".data =
      [("email".data, .pstr "abc".data)] := by
  exact ⟨by decide, by decide⟩

/-- C5 (amended): for a field classified as email whose nonempty string
value yields no valid email substring (pattern local@domain.tld with tld of
at least 2 characters, after decoding %40), the field is dropped from the
transformed output record exactly when the value begins with "/"; otherwise
the field is kept with its original value. -/
theorem c5_amended :
    ∀ (gal : Str → Str) (s : Str), s ≠ [] → emailFound s = none →
      clean_email_value s = (if startsWith "/".data s then none else some s) ∧
      transform_item gal [("email".data, .pstr s)] "Contacts".data =
        (if startsWith "/".data s then []
         else [("email".data, .pstr s)]) := by
  intro gal s hs hf
  have h1 : clean_email_value s =
      (if startsWith "/".data s then none else some s) := by
    rw [clean_email_eq, hf]
  refine ⟨h1, ?_⟩
  have hgo : transform_item gal [("email".data, .pstr s)] "Contacts".data =
      (if (PVal.pstr s) = .pnull ∨ (PVal.pstr s) = .pstr [] then
        transformGo gal "Contacts".data [] (setItem "email".data .pnull [])
      else
        match transformField gal "email".data (.pstr s) with
        | none => transformGo gal "Contacts".data [] []
        | some v2 =>
          transformGo gal "Contacts".data [] (setItem "email".data v2 [])) :=
    rfl
  rw [hgo, if_neg (by
    rintro (h | h)
    · cases h
    · exact hs (PVal.pstr.inj h))]
  have htf : transformField gal "email".data (.pstr s) =
      (clean_email_value s).map .pstr := rfl
  rw [htf, h1]
  by_cases hsl : startsWith "/".data s = true
  · rw [if_pos hsl, if_pos hsl]
    rfl
  · rw [if_neg hsl, if_neg hsl]
    rfl

/-- Witness for the amended C5: a leading-slash value with no email match is
dropped, and a slash-free value with no email match is kept. -/
theorem c5_witness :
    emailFound "/abc".data = none ∧
    transform_item idGal [("email".data, .pstr "/abc".data)] "Contacts".data
      = [] := by
  refine ⟨by decide, ?_⟩
  rw [(c5_amended idGal "/abc".data (by decide) (by decide)).2]
  rfl

/-! ## C8: the wix:image protocol rewrite
(convert_wix_media_url, lines 350-391) -/

theorem mem_of_containsSub {s pat : Str} {c : Char} (hc : c ∈ pat)
    (h : containsSub s pat = true) : c ∈ s :=
  (containsSub_iff.mp h).subset hc

theorem endsWith_getLast? {p s : Str} (hp : p ≠ []) (h : endsWith p s = true) :
    s.getLast? = p.getLast? := by
  obtain ⟨t, ht⟩ := endsWith_iff.mp h
  rw [← ht]
  exact List.getLast?_append_of_ne_nil t hp

/-- The three if/elif suffix branches of convert_wix_media_url
(lines 380-385) are equivalent to the single rule of the spec: append
"~mv2.jpg" unless the id already carries the "~mv2" marker or a recognized
image extension.  The first two branches (ids of the shape "mv2" or
hex+"mv2" without a tilde) only fire on ids that the third branch would have
extended as well. -/
theorem mediaSuffix_eq (mid : Str) :
    wixSuffixed mid =
    (if containsSub mid "~mv2".data || hasImageExt mid then mid
     else mid ++ "~mv2.jpg".data) := by
  rw [wixSuffixed]
  by_cases h : (containsSub mid "~mv2".data || hasImageExt mid) = true
  · rw [if_pos h]
    rcases Bool.or_eq_true_iff.mp h with hsub | hext
    · have htl : '~' ∈ mid := mem_of_containsSub (by decide) hsub
      have hne : List.contains mid '~' = true := List.elem_iff.mpr htl
      have hc1 : (isMv2Only mid && !List.contains mid '~') = false := by
        rw [hne]; simp
      have hc2 : (isHexMv2 mid && !List.contains mid '~') = false := by
        rw [hne]; simp
      rw [if_neg (by rw [hc1]; exact Bool.false_ne_true),
        if_neg (by rw [hc2]; exact Bool.false_ne_true),
        if_neg (by rw [h]; decide)]
    · have hb1 : isMv2Only mid = false := by
        cases hb : isMv2Only mid with
        | false => rfl
        | true =>
          exfalso
          rw [isMv2Only] at hb
          have hb' : stripNL (lowerStr mid) = "mv2".data :=
            of_decide_eq_true hb
          rw [hasImageExt, hb'] at hext
          exact absurd hext (by decide)
      have hb2 : isHexMv2 mid = false := by
        cases hb : isHexMv2 mid with
        | false => rfl
        | true =>
          exfalso
          simp only [isHexMv2, Bool.and_eq_true] at hb
          obtain ⟨⟨hmv2, _⟩, _⟩ := hb
          rw [hasImageExt, List.any_eq_true] at hext
          obtain ⟨e, he, hee⟩ := hext
          have he' : e = ".jpg".data ∨ e = ".jpeg".data ∨ e = ".png".data ∨
              e = ".gif".data ∨ e = ".webp".data ∨ e = ".svg".data := by
            simpa [imageExts] using he
          have h2 : (stripNL (lowerStr mid)).getLast? = some '2' := by
            rw [endsWith_getLast? (by decide) hmv2]
            rfl
          have hg : (stripNL (lowerStr mid)).getLast? = e.getLast? :=
            endsWith_getLast?
              (by rcases he' with h|h|h|h|h|h <;> subst h <;> decide) hee
          rcases he' with h|h|h|h|h|h <;> subst h <;>
            rw [h2] at hg <;> exact absurd hg (by decide)
      rw [if_neg (by rw [hb1]; simp), if_neg (by rw [hb2]; simp),
        if_neg (by rw [h]; decide)]
  · rw [if_neg h]
    have h0 : (containsSub mid "~mv2".data || hasImageExt mid) = false := by
      simpa using h
    have h' : (!(containsSub mid "~mv2".data || hasImageExt mid)) = true := by
      rw [h0]; rfl
    by_cases hb1 : (isMv2Only mid && !List.contains mid '~') = true
    · rw [if_pos hb1]
    · rw [if_neg hb1]
      by_cases hb2 : (isHexMv2 mid && !List.contains mid '~') = true
      · rw [if_pos hb2]
      · rw [if_neg hb2, if_pos h']

/-- C8: for every wix:image URI of the v1 form, the rewriter strips the
scheme and version, drops any fragment starting at the first "#", takes the
first path segment as the media id, maps ids of the shape "shapes_(id)" to
the shapes .svg URL, and otherwise returns the media URL with "~mv2.jpg"
appended unless the id already carries the "~mv2" marker or a recognized
image extension.  The hypothesis says "wix:image://" occurs nowhere in the
tail, matching Python str.replace which removes every occurrence. -/
theorem c8_wix_image :
    ∀ (gal : Str → Str) (t : Str),
      containsSub t "wix:image://".data = false →
      convert_wix_url_field gal ("wix:image://v1/".data ++ t) .single =
        (let mid := (t.takeWhile (fun c => c != '#')).takeWhile
          (fun c => c != '/')
         if startsWith "shapes_".data mid then
           "https://static.wixstatic.com/shapes/".data ++
             replaceAll "shapes_".data [] mid ++ ".svg".data
         else
           "https://static.wixstatic.com/media/".data ++
             (if containsSub mid "~mv2".data || hasImageExt mid then mid
              else mid ++ "~mv2.jpg".data)) := by
  intro gal t ht
  rw [show "wix:image://v1/".data =
      "wix:image://".data ++ "v1/".data from by decide, List.append_assoc]
  have h1 : convert_wix_url_field gal
      ("wix:image://".data ++ ("v1/".data ++ t)) .single =
      convertWixCore ("wix:image://".data ++ ("v1/".data ++ t)) := rfl
  have hsw : startsWith "wix:image://".data
      ("wix:image://".data ++ ("v1/".data ++ t)) = true := rfl
  have hrep : replaceAll "wix:image://".data []
      ("wix:image://".data ++ ("v1/".data ++ t)) = "v1/".data ++ t :=
    replaceAll_pref (by decide)
      (ht : containsSub ("v1/".data ++ t) "wix:image://".data = false)
  have hhash : (splitOnChar '#' ("v1/".data ++ t)).headD [] =
      "v1/".data ++ t.takeWhile (fun c => c != '#') := by
    rw [splitOnChar_headD]
    exact List.takeWhile_append_of_pos (by decide)
  have hparts : splitOnChar '/' ("v1/".data ++ t.takeWhile (fun c => c != '#')) =
      "v1".data :: splitOnChar '/' (t.takeWhile (fun c => c != '#')) :=
    splitOnChar_append_cons (show ('/' : Char) ∉ "v1".data by decide)
  have hcond : (("v1".data :: splitOnChar '/'
      (t.takeWhile (fun c => c != '#'))).headD [] = "v1".data ∧
      2 ≤ ("v1".data :: splitOnChar '/'
        (t.takeWhile (fun c => c != '#'))).length) := by
    refine ⟨rfl, ?_⟩
    have := List.length_pos.mpr
      (@splitOnChar_ne_nil '/' (t.takeWhile (fun c => c != '#')))
    simp only [List.length_cons]
    omega
  have hmid : wixMediaId ("wix:image://".data ++ ("v1/".data ++ t)) =
      (t.takeWhile (fun c => c != '#')).takeWhile (fun c => c != '/') := by
    simp only [wixMediaId, hrep, hhash, hparts]
    rw [if_pos hcond]
    simp only [List.drop_succ_cons, List.drop_zero, List.headD_cons]
    rw [splitOnChar_headD]
  rw [h1, convertWixCore, if_neg (not_not_intro hsw), hmid, mediaSuffix_eq]

/-- Witness for C8: the scenario URI from the spec. -/
theorem c8_witness :
    convert_wix_url_field idGal
      "wix:image://v1/2d321c_abc123.jpg/photo.jpg#originWidth=800".data
      .single =
      "https://static.wixstatic.com/media/2d321c_abc123.jpg".data := by
  have h := c8_wix_image idGal
    "2d321c_abc123.jpg/photo.jpg#originWidth=800".data (by decide)
  rw [show "wix:image://v1/".data ++
      "2d321c_abc123.jpg/photo.jpg#originWidth=800".data =
      "wix:image://v1/2d321c_abc123.jpg/photo.jpg#originWidth=800".data
      from by decide] at h
  rw [h]
  decide

/-! ## C1: idempotence of the media rewriter
(convert_wix_url_field, lines 393-512) -/

theorem convert_http {y : Str} (h : startsWith "http".data y = true) :
    convert_wix_media_url y = y := by
  obtain ⟨t, ht⟩ := startsWith_iff.mp h
  subst ht
  have hemp : ¬ (("http".data ++ t).isEmpty = true) := by
    rw [show ("http".data ++ t).isEmpty = false from rfl]
    exact Bool.false_ne_true
  by_cases hc : (startsWith "http://".data ("http".data ++ t) ||
      startsWith "https://".data ("http".data ++ t)) = true
  · rw [convert_wix_media_url, if_neg hemp, if_pos hc]
  · have hbr : ¬ ((startsWith "[".data ("http".data ++ t) ||
        startsWith "\x7b".data ("http".data ++ t)) = true) := by
      rw [show (startsWith "[".data ("http".data ++ t) ||
        startsWith "\x7b".data ("http".data ++ t)) = false from rfl]
      exact Bool.false_ne_true
    have hgd : ¬ (startsWith "wix:image://".data ("http".data ++ t) = true) := by
      rw [show startsWith "wix:image://".data ("http".data ++ t) = false
        from rfl]
      exact Bool.false_ne_true
    rw [convert_wix_media_url, if_neg hemp, if_neg hc, if_neg hbr,
      convertWixCore, if_pos hgd]

theorem core_http {t : Str} (h : startsWith "wix:image://".data t = true) :
    startsWith "http".data (convertWixCore t) = true := by
  rw [convertWixCore, if_neg (not_not_intro h)]
  by_cases hs : startsWith "shapes_".data (wixMediaId t) = true
  · rw [if_pos hs]; rfl
  · rw [if_neg hs]; rfl

theorem slugPart_cases (s : Str) :
    slugPart s = s ∨ startsWith "http".data (slugPart s) = true := by
  rw [slugPart]
  by_cases hc : containsSub s "\"slug\"".data = true
  · rw [if_pos hc]
    split
    · rename_i slug _
      by_cases hb : (!(containsSub slug "~mv2".data || hasImageExt slug) &&
          isHexId slug) = true
      · rw [if_pos hb]; exact Or.inr rfl
      · rw [if_neg hb]; exact Or.inr rfl
    · exact Or.inl rfl
  · rw [if_neg hc]; exact Or.inl rfl

theorem core_cases (s : Str) :
    convertWixCore s = s ∨
      startsWith "http".data (convertWixCore s) = true := by
  by_cases hg : startsWith "wix:image://".data s = true
  · exact Or.inr (core_http hg)
  · rw [convertWixCore, if_pos hg]
    exact Or.inl rfl

/-- Every output of convert_wix_media_url is the input itself or a string
starting with "http" (a rewritten public URL, or a nested uri value that the
code returns because it starts with "http"). -/
theorem convert_cases (s : Str) :
    convert_wix_media_url s = s ∨
      startsWith "http".data (convert_wix_media_url s) = true := by
  rw [convert_wix_media_url]
  by_cases h0 : s.isEmpty = true
  · rw [if_pos h0]; exact Or.inl rfl
  rw [if_neg h0]
  by_cases h1 : (startsWith "http://".data s ||
      startsWith "https://".data s) = true
  · rw [if_pos h1]; exact Or.inl rfl
  rw [if_neg h1]
  by_cases h2 : (startsWith "[".data s || startsWith "\x7b".data s) = true
  · rw [if_pos h2]
    split
    · rename_i nested _
      by_cases h3 : startsWith "wix:image://".data nested = true
      · rw [if_pos h3]; exact Or.inr (core_http h3)
      · rw [if_neg h3]
        by_cases h4 : startsWith "http".data nested = true
        · rw [if_pos h4]; exact Or.inr h4
        · rw [if_neg h4]; exact slugPart_cases s
    · exact slugPart_cases s
  · rw [if_neg h2]; exact core_cases s

theorem cwuf_single_eq (gal : Str → Str) (v : Str) :
    convert_wix_url_field gal v .single =
      if v.isEmpty = true then v
      else if is_wix_media_url v = true then convert_wix_media_url v
      else v := rfl

theorem cwuf_document_eq (gal : Str → Str) (v : Str) :
    convert_wix_url_field gal v .document =
      convert_wix_url_field gal v .single := rfl

theorem cwuf_single_idem (gal : Str → Str) (v : Str) :
    convert_wix_url_field gal (convert_wix_url_field gal v .single) .single =
      convert_wix_url_field gal v .single := by
  rw [cwuf_single_eq gal v]
  by_cases h0 : v.isEmpty = true
  · rw [if_pos h0, cwuf_single_eq, if_pos h0]
  rw [if_neg h0]
  by_cases h1 : is_wix_media_url v = true
  · rw [if_pos h1]
    rcases convert_cases v with hc | hc
    · rw [hc, cwuf_single_eq, if_neg h0, if_pos h1, hc]
    · have hy0 : (convert_wix_media_url v).isEmpty = false := by
        obtain ⟨t2, ht2⟩ := startsWith_iff.mp hc
        rw [← ht2]; rfl
      rw [cwuf_single_eq, if_neg (by rw [hy0]; exact Bool.false_ne_true)]
      by_cases h2 : is_wix_media_url (convert_wix_media_url v) = true
      · rw [if_pos h2, convert_http hc]
      · rw [if_neg h2]
  · rw [if_neg h1, cwuf_single_eq, if_neg h0, if_neg h1]

theorem cwuf_single_http (gal : Str → Str) (v : Str)
    (h : (startsWith "http://".data v || startsWith "https://".data v)
      = true) :
    convert_wix_url_field gal v .single = v := by
  have hh : startsWith "http".data v = true := by
    rcases Bool.or_eq_true_iff.mp h with h' | h'
    · obtain ⟨t, ht⟩ := startsWith_iff.mp h'
      rw [← ht]; rfl
    · obtain ⟨t, ht⟩ := startsWith_iff.mp h'
      rw [← ht]; rfl
  have h0 : v.isEmpty = false := by
    obtain ⟨t, ht⟩ := startsWith_iff.mp hh
    rw [← ht]; rfl
  rw [cwuf_single_eq, if_neg (by rw [h0]; exact Bool.false_ne_true)]
  by_cases h1 : is_wix_media_url v = true
  · rw [if_pos h1, convert_http hh]
  · rw [if_neg h1]

theorem drop_append_left {l r : Str} {k : Nat} (h : k ≤ l.length) :
    (l ++ r).drop k = l.drop k ++ r := by
  induction l generalizing k with
  | nil =>
    have : k = 0 := Nat.le_zero.mp h
    subst this; rfl
  | cons a l' ih =>
    cases k with
    | zero => rfl
    | succ k' =>
      rw [List.cons_append, List.drop_succ_cons, List.drop_succ_cons,
        ih (Nat.le_of_succ_le_succ h)]

theorem drop_append_right (l r : Str) (k : Nat) :
    (l ++ r).drop (l.length + k) = r.drop k := by
  rw [← List.drop_drop, List.drop_left]

theorem take_append_left {l r : Str} {k : Nat} (h : k ≤ l.length) :
    (l ++ r).take k = l.take k := by
  induction l generalizing k with
  | nil =>
    have : k = 0 := Nat.le_zero.mp h
    subst this; rfl
  | cons a l' ih =>
    cases k with
    | zero => rfl
    | succ k' =>
      rw [List.cons_append, List.take_succ_cons, List.take_succ_cons,
        ih (Nat.le_of_succ_le_succ h)]

/-- If a pattern does not occur in a concrete left part, no nonempty proper
prefix of the pattern is a suffix of that left part, and some character of
the pattern is absent from the right part, then the pattern does not occur
in the concatenation: an occurrence would have to sit inside the left part,
straddle the seam, or reach into the right part, and each is excluded. -/
theorem containsSub_append_false {pat lit rest : Str} {d : Char}
    (hlit : containsSub lit pat = false)
    (hstr : ∀ k, k < pat.length → 0 < k → ¬ (pat.take k <:+ lit))
    (hd : d ∈ pat) (hrest : d ∉ rest) :
    containsSub (lit ++ rest) pat = false := by
  cases hcs : containsSub (lit ++ rest) pat with
  | false => rfl
  | true =>
    exfalso
    obtain ⟨u, w, huw⟩ := containsSub_iff.mp hcs
    rw [List.append_assoc] at huw
    rcases List.append_eq_append_iff.mp huw with ⟨a, ha1, ha2⟩ | ⟨a, ha1, ha2⟩
    · rcases List.append_eq_append_iff.mp ha2 with ⟨b, hb1, hb2⟩ | ⟨b, hb1, hb2⟩
      · have hocc : containsSub lit pat = true := by
          refine containsSub_iff.mpr ⟨u, b, ?_⟩
          rw [ha1, hb1, List.append_assoc]
        rw [hocc] at hlit
        cases hlit
      · by_cases hbnil : b = []
        · subst hbnil
          rw [List.append_nil] at hb1
          have hocc : containsSub lit pat = true := by
            refine containsSub_iff.mpr ⟨u, [], ?_⟩
            rw [List.append_assoc, List.append_nil, hb1, ha1]
          rw [hocc] at hlit
          cases hlit
        · by_cases hanil : a = []
          · subst hanil
            rw [List.nil_append] at hb1
            subst hb1
            exact hrest (hb2 ▸ List.mem_append_left w hd)
          · have hlen : pat.length = a.length + b.length := by
              rw [hb1, List.length_append]
            have hbpos : 0 < b.length := List.length_pos.mpr hbnil
            have hlt : a.length < pat.length := by omega
            have hpos : 0 < a.length := List.length_pos.mpr hanil
            refine hstr a.length hlt hpos ?_
            have htake : pat.take a.length = a := by
              rw [hb1, List.take_left]
            rw [htake]
            exact ⟨u, ha1.symm⟩
    · exact hrest (ha2 ▸ List.mem_append_right a
        (List.mem_append_left w hd))

theorem splitOnChar_not_mem {sep : Char} :
    ∀ {s x : Str}, x ∈ splitOnChar sep s → sep ∉ x := by
  intro s
  induction s with
  | nil =>
    intro x hx
    rw [splitOnChar, List.mem_singleton] at hx
    subst hx
    exact List.not_mem_nil sep
  | cons c rest ih =>
    intro x hx
    rw [splitOnChar] at hx
    split at hx
    · rename_i heq
      exact absurd heq splitOnChar_ne_nil
    · rename_i a t heq
      by_cases hc : c = sep
      · rw [if_pos hc] at hx
        rcases List.mem_cons.mp hx with h1 | h1
        · subst h1; exact List.not_mem_nil sep
        · exact ih (by rw [heq]; exact h1)
      · rw [if_neg hc] at hx
        rcases List.mem_cons.mp hx with h1 | h1
        · subst h1
          intro hmem
          rcases List.mem_cons.mp hmem with h2 | h2
          · exact hc h2.symm
          · exact ih (by rw [heq]; exact List.mem_cons_self a t) h2
        · exact ih (by rw [heq]; exact List.mem_cons_of_mem a h1)

theorem slash_not_mem_wixMediaId (s : Str) : '/' ∉ wixMediaId s := by
  have key : ∀ x ∈ splitOnChar '/'
      ((splitOnChar '#' (replaceAll "wix:image://".data [] s)).headD []),
      '/' ∉ x := fun _ hx => splitOnChar_not_mem hx
  rw [wixMediaId]
  simp only []
  set parts := splitOnChar '/'
    ((splitOnChar '#' (replaceAll "wix:image://".data [] s)).headD []) with hp
  have hne : parts ≠ [] := splitOnChar_ne_nil
  by_cases hc : (parts.headD [] = "v1".data ∧ 2 ≤ parts.length)
  · rw [if_pos hc]
    cases hd : parts.drop 1 with
    | nil => simp
    | cons a t =>
      have hmem : a ∈ parts := by
        refine List.drop_subset 1 parts ?_
        rw [hd]
        exact List.mem_cons_self a t
      have := key a hmem
      simpa using this
  · rw [if_neg hc]
    cases hh : parts with
    | nil => exact absurd hh hne
    | cons a t =>
      have hmem : a ∈ parts := by
        rw [hh]
        exact List.mem_cons_self a t
      have := key a hmem
      simpa using this

theorem mem_replaceAllAux_del {pat : Str} {c : Char} :
    ∀ (fuel : Nat) (s : Str), c ∈ replaceAllAux pat [] fuel s → c ∈ s := by
  intro fuel
  induction fuel with
  | zero => intro s h; exact h
  | succ n ih =>
    intro s h
    cases s with
    | nil => exact h
    | cons a rest =>
      rw [replaceAllAux] at h
      by_cases hsw : startsWith pat (a :: rest) = true
      · rw [if_pos hsw, List.nil_append] at h
        exact List.mem_cons_of_mem a (List.drop_subset _ _ (ih _ h))
      · rw [if_neg hsw] at h
        rcases List.mem_cons.mp h with h1 | h1
        · exact h1 ▸ List.mem_cons_self a rest
        · exact List.mem_cons_of_mem a (ih _ h1)

theorem mem_replaceAll_del {pat s : Str} {c : Char}
    (h : c ∈ replaceAll pat [] s) : c ∈ s := by
  cases pat with
  | nil => exact h
  | cons p ps => exact mem_replaceAllAux_del _ _ h

theorem slash_not_mem_wixSuffixed {mid : Str} (h : '/' ∉ mid) :
    '/' ∉ wixSuffixed mid := by
  rw [wixSuffixed]
  split_ifs <;>
    first
      | exact h
      | (intro hm
         rcases List.mem_append.mp hm with h1 | h1
         · exact h h1
         · exact absurd h1 (by decide))

/-- convert_wix_media_url on a string that starts with the wix:image scheme
reduces to the protocol core. -/
theorem convert_on_wix {m : Str}
    (hm : startsWith "wix:image://".data m = true) :
    convert_wix_media_url m = convertWixCore m := by
  obtain ⟨t, ht⟩ := startsWith_iff.mp hm
  subst ht
  have h1 : ¬ ((("wix:image://".data ++ t)).isEmpty = true) := by
    rw [show (("wix:image://".data ++ t)).isEmpty = false from rfl]
    exact Bool.false_ne_true
  have h2 : ¬ ((startsWith "http://".data ("wix:image://".data ++ t) ||
      startsWith "https://".data ("wix:image://".data ++ t)) = true) := by
    rw [show (startsWith "http://".data ("wix:image://".data ++ t) ||
      startsWith "https://".data ("wix:image://".data ++ t)) = false from rfl]
    exact Bool.false_ne_true
  have h3 : ¬ ((startsWith "[".data ("wix:image://".data ++ t) ||
      startsWith "\x7b".data ("wix:image://".data ++ t)) = true) := by
    rw [show (startsWith "[".data ("wix:image://".data ++ t) ||
      startsWith "\x7b".data ("wix:image://".data ++ t)) = false from rfl]
    exact Bool.false_ne_true
  rw [convert_wix_media_url, if_neg h1, if_neg h2, if_neg h3]

/-- The rewritten form of a wix:image reference contains no further
occurrence of the scheme marker: it is a concrete public-URL stem followed
by a slash-free media id (and a slash-free fixed suffix), while the marker
contains a slash. -/
theorem convert_match_no_wix {m : Str}
    (hm : startsWith "wix:image://".data m = true) :
    containsSub (convert_wix_media_url m) "wix:image://".data = false := by
  rw [convert_on_wix hm, convertWixCore, if_neg (not_not_intro hm)]
  by_cases hs : startsWith "shapes_".data (wixMediaId m) = true
  · rw [if_pos hs]
    rw [List.append_assoc]
    refine containsSub_append_false (d := '/') (by decide) (by decide)
      (by decide) ?_
    intro hmem
    rcases List.mem_append.mp hmem with h1 | h1
    · exact slash_not_mem_wixMediaId m (mem_replaceAll_del h1)
    · exact absurd h1 (by decide)
  · rw [if_neg hs]
    refine containsSub_append_false (d := '/') (by decide) (by decide)
      (by decide) ?_
    exact slash_not_mem_wixSuffixed (slash_not_mem_wixMediaId m)

/-- The content-branch worker consumes no fuel effect on the empty string. -/
theorem subWixAux_nil (conv : Str → Str) (fuel : Nat) :
    subWixContentAux conv fuel [] = [] := by
  cases fuel <;> rfl

/-- Unless the content pattern matches here with a nonempty body, the worker
copies the head character and recurses on the tail. -/
theorem subWixAux_copy {conv : Str → Str} {fuel : Nat} {c : Char} {rest : Str}
    (h : ¬(startsWith "wix:image://".data (c :: rest) = true ∧
        ((c :: rest).drop 12).takeWhile contentOk ≠ [])) :
    subWixContentAux conv (fuel + 1) (c :: rest) =
      c :: subWixContentAux conv fuel rest := by
  rw [subWixContentAux]
  by_cases hsw : startsWith "wix:image://".data (c :: rest) = true
  · rw [if_pos hsw]
    have hb : ((c :: rest).drop 12).takeWhile contentOk = [] := by
      by_contra hb
      exact h ⟨hsw, hb⟩
    simp only [hb, List.isEmpty_nil, Bool.not_true, Bool.false_eq_true,
      if_false]
  · rw [if_neg hsw]

/-- When the content pattern matches here with a nonempty body, the worker
emits the converted match and recurses after it. -/
theorem subWixAux_match {conv : Str → Str} {fuel : Nat} {c : Char} {rest : Str}
    (hsw : startsWith "wix:image://".data (c :: rest) = true)
    (hb : ((c :: rest).drop 12).takeWhile contentOk ≠ []) :
    subWixContentAux conv (fuel + 1) (c :: rest) =
      conv ("wix:image://".data ++ ((c :: rest).drop 12).takeWhile contentOk) ++
        subWixContentAux conv fuel
          (((c :: rest).drop 12).drop
            (((c :: rest).drop 12).takeWhile contentOk).length) := by
  rw [subWixContentAux, if_pos hsw]
  have hb' : (((c :: rest).drop 12).takeWhile contentOk).isEmpty = false := by
    cases hbl : ((c :: rest).drop 12).takeWhile contentOk with
    | nil => exact absurd hbl hb
    | cons d r => rfl
  simp only [hb', Bool.not_false, if_true]

/-- A string starting with the scheme marker starts with the letter w. -/
theorem startsWith_wix_head {c : Char} {x : Str}
    (h : startsWith "wix:image://".data (c :: x) = true) : c = 'w' := by
  obtain ⟨t, ht⟩ := startsWith_iff.mp h
  injection ht with h1 _
  exact h1.symm

/-- At a character excluded from the content body class, no scheme-marker
match can start (the marker begins with w, which is in the class). -/
theorem startsWith_notOk {d : Char} {r : Str} (hd : contentOk d = false) :
    startsWith "wix:image://".data (d :: r) = false := by
  cases hsw : startsWith "wix:image://".data (d :: r) with
  | false => rfl
  | true =>
    rw [startsWith_wix_head hsw] at hd
    exact absurd hd (by decide)

/-- The worker copies any leading segment that contains no w verbatim,
spending one unit of fuel per character. -/
theorem subWixAux_copy_seg {conv : Str → Str} :
    ∀ (l : Str), 'w' ∉ l → ∀ (fuel : Nat) (tail : Str),
      subWixContentAux conv fuel (l ++ tail) =
        l ++ subWixContentAux conv (fuel - l.length) tail := by
  intro l
  induction l with
  | nil =>
    intro _ fuel tail
    simp only [List.nil_append, List.length_nil, Nat.sub_zero]
  | cons c l2 ih =>
    intro hw fuel tail
    have hcw : c ≠ 'w' := by
      intro hce
      apply hw
      rw [← hce]
      exact List.mem_cons_self c l2
    have hc : startsWith "wix:image://".data (c :: (l2 ++ tail)) = false := by
      cases hsw : startsWith "wix:image://".data (c :: (l2 ++ tail)) with
      | false => rfl
      | true => exact absurd (startsWith_wix_head hsw) hcw
    cases fuel with
    | zero =>
      rw [Nat.zero_sub]
      rfl
    | succ m =>
      show subWixContentAux conv (m + 1) (c :: (l2 ++ tail)) =
        c :: (l2 ++ subWixContentAux conv (m + 1 - (c :: l2).length) tail)
      rw [subWixAux_copy (fun hand => absurd hand.1
        (by rw [hc]; exact Bool.false_ne_true))]
      rw [ih (fun hmem => hw (List.mem_cons_of_mem c hmem)) m tail]
      rw [List.length_cons, Nat.succ_sub_succ]

/-- The element just past the maximal body prefix fails the body class. -/
theorem head_drop_takeWhile (q : Char → Bool) :
    ∀ (l : Str) (d : Char) (r : Str),
      l.drop (l.takeWhile q).length = d :: r → q d = false := by
  intro l
  induction l with
  | nil =>
    intro d r h
    rw [List.drop_nil] at h
    exact absurd h (by simp)
  | cons c tl ih =>
    intro d r h
    by_cases hc : q c = true
    · rw [List.takeWhile_cons, if_pos hc, List.length_cons,
        List.drop_succ_cons] at h
      exact ih d r h
    · have hc' : q c = false := Bool.eq_false_iff.mpr hc
      rw [List.takeWhile_cons, if_neg hc, List.length_nil,
        List.drop_zero] at h
      injection h with h1 _
      rw [← h1]
      exact hc'

/-- If a string has no body-class prefix, neither does any worker output on
it: the worker either copies the offending head or leaves it in place. -/
theorem subWix_takeWhile_nil {conv : Str → Str} {t : Str}
    (h : List.takeWhile contentOk t = []) (fuel : Nat) :
    List.takeWhile contentOk (subWixContentAux conv fuel t) = [] := by
  cases t with
  | nil => simp [subWixAux_nil]
  | cons d r =>
    have hd : contentOk d = false := by
      rw [List.takeWhile_cons] at h
      by_cases hc : contentOk d = true
      · rw [if_pos hc] at h
        exact absurd h (List.cons_ne_nil _ _)
      · exact Bool.eq_false_iff.mpr hc
    cases fuel with
    | zero =>
      show List.takeWhile contentOk (d :: r) = []
      simp [List.takeWhile_cons, hd]
    | succ m =>
      rw [subWixAux_copy (fun hand => absurd hand.1
        (by rw [startsWith_notOk hd]; exact Bool.false_ne_true))]
      simp [List.takeWhile_cons, hd]

/-- Both converted forms of a wix:image reference begin with the letter h
(the https public-URL stems). -/
theorem convert_head {m : Str}
    (hm : startsWith "wix:image://".data m = true) :
    ∃ t, convert_wix_media_url m = 'h' :: t := by
  rw [convert_on_wix hm, convertWixCore, if_neg (not_not_intro hm)]
  by_cases hs : startsWith "shapes_".data (wixMediaId m) = true
  · rw [if_pos hs]
    exact ⟨_, rfl⟩
  · rw [if_neg hs]
    exact ⟨_, rfl⟩

/-- An h-free prefix of a worker output is a prefix of the input: every
replacement chunk starts with h, so such a prefix only crosses copied
characters. -/
theorem prefix_of_subWix :
    ∀ (fuel : Nat) (l s : Str), 'h' ∉ l →
      l <+: subWixContentAux convert_wix_media_url fuel s → l <+: s := by
  intro fuel
  induction fuel with
  | zero =>
    intro l s _ h
    exact h
  | succ m ih =>
    intro l s hl h
    cases s with
    | nil =>
      rw [subWixAux_nil] at h
      exact h
    | cons c rest =>
      by_cases hsw : startsWith "wix:image://".data (c :: rest) = true
      · by_cases hb : ((c :: rest).drop 12).takeWhile contentOk = []
        · rw [subWixAux_copy (fun hand => hand.2 hb)] at h
          cases l with
          | nil => exact List.nil_prefix
          | cons x xl =>
            obtain ⟨t, ht⟩ := h
            injection ht with h1 h2
            obtain ⟨t2, ht2⟩ :=
              ih xl rest (fun hmem => hl (List.mem_cons_of_mem x hmem)) ⟨t, h2⟩
            refine ⟨t2, ?_⟩
            rw [h1]
            exact congrArg (List.cons c) ht2
        · rw [subWixAux_match hsw hb] at h
          cases l with
          | nil => exact List.nil_prefix
          | cons x xl =>
            exfalso
            obtain ⟨tR, hRh⟩ := convert_head
              (startsWith_iff.mpr
                ⟨((c :: rest).drop 12).takeWhile contentOk, rfl⟩)
            rw [hRh] at h
            obtain ⟨t, ht⟩ := h
            injection ht with h1 _
            apply hl
            rw [h1]
            exact List.mem_cons_self 'h' xl
      · rw [subWixAux_copy (fun hand => hsw hand.1)] at h
        cases l with
        | nil => exact List.nil_prefix
        | cons x xl =>
          obtain ⟨t, ht⟩ := h
          injection ht with h1 h2
          obtain ⟨t2, ht2⟩ :=
            ih xl rest (fun hmem => hl (List.mem_cons_of_mem x hmem)) ⟨t, h2⟩
          refine ⟨t2, ?_⟩
          rw [h1]
          exact congrArg (List.cons c) ht2

/-- A string admitting no content-pattern match anywhere: wherever the
scheme marker starts, its body is empty. -/
def wixBodyless (u : Str) : Prop :=
  ∀ p : Nat, startsWith "wix:image://".data (u.drop p) = true →
    ((u.drop p).drop 12).takeWhile contentOk = []

theorem wixBodyless_nil : wixBodyless [] := by
  intro p hp
  rw [List.drop_nil] at hp
  exact absurd hp (by decide)

/-- A matchless string is a fixed point of the content re.sub worker for
every fuel and every replacement function. -/
theorem wixBodyless_stable {conv : Str → Str} :
    ∀ (fuel : Nat) (u : Str), wixBodyless u →
      subWixContentAux conv fuel u = u := by
  intro fuel
  induction fuel with
  | zero =>
    intro u _
    rfl
  | succ m ih =>
    intro u hu
    cases u with
    | nil => rfl
    | cons c rest =>
      have hrest : wixBodyless rest := fun p hp => hu (p + 1) hp
      by_cases hsw : startsWith "wix:image://".data (c :: rest) = true
      · have hb : ((c :: rest).drop 12).takeWhile contentOk = [] := hu 0 hsw
        rw [subWixAux_copy (fun hand => hand.2 hb), ih rest hrest]
      · rw [subWixAux_copy (fun hand => hsw hand.1), ih rest hrest]

/-- With enough fuel, the content re.sub worker output admits no further
match: the replacement chunks contain no scheme marker (their media ids are
slash-free while the marker has slashes), a marker cannot straddle a chunk
boundary (the next kept character fails the body class while every marker
character is in it), and residual copied markers keep their empty bodies. -/
theorem subWix_output_bodyless :
    ∀ (fuel : Nat) (s : Str), s.length ≤ fuel →
      wixBodyless (subWixContentAux convert_wix_media_url fuel s) := by
  intro fuel
  induction fuel with
  | zero =>
    intro s hs
    have hnil : s = [] := List.length_eq_zero.mp (Nat.le_zero.mp hs)
    subst hnil
    exact wixBodyless_nil
  | succ fuel ih =>
    intro s hs
    cases s with
    | nil => exact wixBodyless_nil
    | cons c rest =>
      have hrl : rest.length ≤ fuel := Nat.le_of_succ_le_succ hs
      have hpl : ("wix:image://".data).length = 12 := rfl
      by_cases hsw : startsWith "wix:image://".data (c :: rest) = true
      · by_cases hb : ((c :: rest).drop 12).takeWhile contentOk = []
        · rw [subWixAux_copy (fun hand => hand.2 hb)]
          intro p hp
          cases p with
          | zero =>
            obtain ⟨t0, ht0⟩ := startsWith_iff.mp hsw
            injection ht0 with hc0 hrest0
            have htw : List.takeWhile contentOk t0 = [] := by
              rw [← hrest0] at hb
              exact hb
            have hcopy : subWixContentAux convert_wix_media_url fuel rest =
                "ix:image://".data ++
                  subWixContentAux convert_wix_media_url
                    (fuel - ("ix:image://".data).length) t0 := by
              rw [← hrest0]
              exact subWixAux_copy_seg "ix:image://".data (by decide) fuel t0
            rw [List.drop_zero, hcopy]
            show List.takeWhile contentOk
              (subWixContentAux convert_wix_media_url
                (fuel - ("ix:image://".data).length) t0) = []
            exact subWix_takeWhile_nil htw _
          | succ p =>
            exact ih rest hrl p hp
        · rw [subWixAux_match hsw hb]
          obtain ⟨body, hbody⟩ :
              ∃ b, ((c :: rest).drop 12).takeWhile contentOk = b := ⟨_, rfl⟩
          rw [hbody]
          obtain ⟨rem, hrem⟩ :
              ∃ m2, ((c :: rest).drop 12).drop body.length = m2 := ⟨_, rfl⟩
          rw [hrem]
          obtain ⟨R, hR⟩ :
              ∃ r2, convert_wix_media_url ("wix:image://".data ++ body) = r2 :=
            ⟨_, rfl⟩
          rw [hR]
          obtain ⟨A, hA⟩ :
              ∃ a2, subWixContentAux convert_wix_media_url fuel rem = a2 :=
            ⟨_, rfl⟩
          rw [hA]
          have hsw2 : startsWith "wix:image://".data
              ("wix:image://".data ++ body) = true :=
            startsWith_iff.mpr ⟨body, rfl⟩
          have hnowix : containsSub R "wix:image://".data = false := by
            rw [← hR]
            exact convert_match_no_wix hsw2
          have hremlen : rem.length ≤ fuel := by
            rw [← hrem, List.length_drop, List.length_drop, List.length_cons]
            omega
          have hAbody : wixBodyless A := by
            rw [← hA]
            exact ih rem hremlen
          have hAhead : A = [] ∨ ∃ d t2, A = d :: t2 ∧ contentOk d = false := by
            cases hrm : rem with
            | nil =>
              left
              rw [← hA, hrm, subWixAux_nil]
            | cons d r2 =>
              right
              have hd : contentOk d = false := by
                refine head_drop_takeWhile contentOk ((c :: rest).drop 12)
                  d r2 ?_
                rw [hbody, hrem]
                exact hrm
              cases fuel with
              | zero =>
                refine ⟨d, r2, ?_, hd⟩
                rw [← hA, hrm]
                rfl
              | succ m3 =>
                refine ⟨d, subWixContentAux convert_wix_media_url m3 r2,
                  ?_, hd⟩
                rw [← hA, hrm]
                exact subWixAux_copy (fun hand => absurd hand.1
                  (by rw [startsWith_notOk hd]; exact Bool.false_ne_true))
          intro p hp
          by_cases hp1 : p + 12 ≤ R.length
          · exfalso
            rw [drop_append_left (by omega)] at hp
            obtain ⟨t, ht⟩ := startsWith_iff.mp hp
            have htake := congrArg (List.take ("wix:image://".data).length) ht
            rw [List.take_left] at htake
            have hlen2 : ("wix:image://".data).length ≤ (R.drop p).length := by
              rw [hpl, List.length_drop]
              omega
            rw [take_append_left hlen2] at htake
            have hpre : "wix:image://".data <+: R.drop p := by
              rw [htake]
              exact List.take_prefix _ _
            obtain ⟨t2, ht2⟩ := hpre
            have hinf : "wix:image://".data <:+: R :=
              ⟨R.take p, t2,
                by rw [List.append_assoc, ht2, List.take_append_drop]⟩
            have hcc : containsSub R "wix:image://".data = true :=
              containsSub_iff.mpr hinf
            rw [hnowix] at hcc
            exact Bool.false_ne_true hcc
          · by_cases hp2 : p < R.length
            · exfalso
              rw [drop_append_left (Nat.le_of_lt hp2)] at hp
              obtain ⟨t, ht⟩ := startsWith_iff.mp hp
              have hkey := congrArg (List.drop ((R.drop p).length)) ht
              rw [List.drop_left] at hkey
              have hlen3 : (R.drop p).length ≤ ("wix:image://".data).length := by
                rw [hpl, List.length_drop]
                omega
              rw [drop_append_left hlen3] at hkey
              rcases hAhead with hA0 | ⟨d, t2, hAeq, hdOk⟩
              · rw [hA0] at hkey
                have hlen4 := congrArg List.length (List.append_eq_nil.mp hkey).1
                rw [List.length_drop, List.length_drop, hpl,
                  List.length_nil] at hlen4
                omega
              · rw [hAeq] at hkey
                cases hpd : "wix:image://".data.drop ((R.drop p).length) with
                | nil =>
                  have hlen4 := congrArg List.length hpd
                  rw [List.length_drop, List.length_drop, hpl,
                    List.length_nil] at hlen4
                  omega
                | cons e r3 =>
                  rw [hpd] at hkey
                  injection hkey with h1 _
                  have he : e ∈ "wix:image://".data := by
                    refine List.drop_subset ((R.drop p).length)
                      "wix:image://".data ?_
                    rw [hpd]
                    exact List.mem_cons_self e r3
                  have hallOk : ∀ ch ∈ "wix:image://".data,
                      contentOk ch = true := by decide
                  have heOk := hallOk e he
                  rw [h1] at heOk
                  rw [heOk] at hdOk
                  exact absurd hdOk (by decide)
            · have hsplit : p = R.length + (p - R.length) := by omega
              rw [hsplit, drop_append_right] at hp ⊢
              exact hAbody _ hp
      · rw [subWixAux_copy (fun hand => hsw hand.1)]
        intro p hp
        cases p with
        | zero =>
          exfalso
          obtain ⟨t, ht⟩ := startsWith_iff.mp hp
          injection ht with hc htail
          have hpre2 : "ix:image://".data <+: rest :=
            prefix_of_subWix fuel "ix:image://".data rest (by decide) ⟨t, htail⟩
          obtain ⟨t2, ht2⟩ := hpre2
          apply hsw
          apply startsWith_iff.mpr
          refine ⟨t2, ?_⟩
          rw [← hc]
          exact congrArg (List.cons 'w') ht2
        | succ p =>
          exact ih rest hrl p hp

/-- The content re.sub is idempotent: its output admits no further match,
so a second pass copies it verbatim. -/
theorem subWixContent_idem (s : Str) :
    subWixContent convert_wix_media_url
        (subWixContent convert_wix_media_url s) =
      subWixContent convert_wix_media_url s := by
  rw [subWixContent]
  exact wixBodyless_stable _ _ (subWix_output_bodyless s.length s le_rfl)

/-- Case form of the content branch of convert_wix_url_field. -/
theorem cwuf_content_eq (gal : Str → Str) (v : Str) :
    convert_wix_url_field gal v .content =
      if v.isEmpty then v
      else if containsSub v "wix:image://".data ||
          containsSub v "wixstatic.com".data then
        subWixContent convert_wix_media_url v
      else v := rfl

/-- The content kind of convert_wix_url_field is idempotent. -/
theorem cwuf_content_idem (gal : Str → Str) (v : Str) :
    convert_wix_url_field gal (convert_wix_url_field gal v .content)
        .content = convert_wix_url_field gal v .content := by
  rw [cwuf_content_eq gal v]
  by_cases hv : v.isEmpty = true
  · rw [if_pos hv, cwuf_content_eq, if_pos hv]
  · rw [if_neg hv]
    by_cases hg : (containsSub v "wix:image://".data ||
        containsSub v "wixstatic.com".data) = true
    · rw [if_pos hg, cwuf_content_eq]
      by_cases hw : (subWixContent convert_wix_media_url v).isEmpty = true
      · rw [if_pos hw]
      · rw [if_neg hw]
        by_cases hgw : (containsSub (subWixContent convert_wix_media_url v)
            "wix:image://".data ||
            containsSub (subWixContent convert_wix_media_url v)
              "wixstatic.com".data) = true
        · rw [if_pos hgw]
          exact subWixContent_idem v
        · rw [if_neg hgw]
    · rw [if_neg hg, cwuf_content_eq, if_neg hv, if_neg hg]

/-- C1 counterexample: the rewriter is NOT idempotent for the array kind.
On the value consisting of a slug object whose slug is "wix:a, b", the
first application takes the single-object slug branch and yields the URL
"https://static.wixstatic.com/media/wix:a, b"; the second application sees
a comma together with the substring "wix:" and takes the comma-separated
branch, which splits, strips and rejoins, yielding
"https://static.wixstatic.com/media/wix:a,b" — a different string.  (The
first output also begins with "https://" yet is still modified, refuting
the pass-through part of the claim for the array kind as well.) -/
theorem c1_counterexample :
    convert_wix_url_field idGal
        (convert_wix_url_field idGal "\x7b\"slug\":\"wix:a, b\"\x7d".data
          .array) .array ≠
      convert_wix_url_field idGal "\x7b\"slug\":\"wix:a, b\"\x7d".data
        .array := by
  decide

/-- C1 (amended): for the field kinds single, document and content,
rewriteMedia is idempotent on every string value, and for single and
document every value that already begins with http:// or https:// is
returned unchanged; for the array kind both properties fail (see the
counterexample). -/
theorem c1_amended :
    ∀ (gal : Str → Str) (v : Str),
      convert_wix_url_field gal (convert_wix_url_field gal v .single)
          .single = convert_wix_url_field gal v .single ∧
      convert_wix_url_field gal (convert_wix_url_field gal v .document)
          .document = convert_wix_url_field gal v .document ∧
      convert_wix_url_field gal (convert_wix_url_field gal v .content)
          .content = convert_wix_url_field gal v .content ∧
      ((startsWith "http://".data v || startsWith "https://".data v)
          = true →
        convert_wix_url_field gal v .single = v ∧
        convert_wix_url_field gal v .document = v) := by
  intro gal v
  refine ⟨cwuf_single_idem gal v, ?_, cwuf_content_idem gal v, ?_⟩
  · rw [cwuf_document_eq, cwuf_document_eq]
    exact cwuf_single_idem gal v
  · intro h
    exact ⟨cwuf_single_http gal v h,
      by rw [cwuf_document_eq]; exact cwuf_single_http gal v h⟩

/-- Witness for the amended C1: a converted wix:image value is a fixed point
of a second application for the single kind, a rewritten rich-text body is a
fixed point for the content kind, and an https URL passes through
unchanged. -/
theorem c1_witness :
    convert_wix_url_field idGal
        (convert_wix_url_field idGal "wix:image://v1/ab_1/f".data .single)
        .single =
      convert_wix_url_field idGal "wix:image://v1/ab_1/f".data .single ∧
    convert_wix_url_field idGal
        (convert_wix_url_field idGal
          "see wix:image://v1/ab_1/f here".data .content) .content =
      convert_wix_url_field idGal
        "see wix:image://v1/ab_1/f here".data .content ∧
    convert_wix_url_field idGal "https://a.com/x".data .single =
      "https://a.com/x".data := by
  refine ⟨?_, ?_, ?_⟩
  · exact (c1_amended idGal "wix:image://v1/ab_1/f".data).1
  · exact (c1_amended idGal "see wix:image://v1/ab_1/f here".data).2.2.1
  · exact ((c1_amended idGal "https://a.com/x".data).2.2.2 (by decide)).1

end RT
